import Mathlib

/-!
Verification of the rpe-math linear-algebra library (Vec3, Mat4, Quat,
Transform, AABB, Ray, scalar helpers) against its natural-language
specification.

Modelling conventions.
Numeric values of the source (f64) are modelled as real numbers; f64
arithmetic is idealised as exact real arithmetic.  Where the behaviour of
IEEE special values is the point of a claim (division by zero, Infinity,
NaN), a dedicated type JsF with the JavaScript evaluation rules for those
operations is used instead (the negative zero -0 and rounding are not
modelled; all finite payloads are exact reals).  The scalar helpers
inverseLerp and mod are additionally modelled over the rationals, with
Option none playing the role of NaN, so that the modulo computation is
executable.  Every definition is a direct translation of the
corresponding source function.
-/

noncomputable section

open Real

/-- Small epsilon for floating point comparisons, from constants.ts. -/
def EPSILON : ℝ := 1e-6

/-- Larger epsilon for loose comparisons, from constants.ts. -/
def EPSILON_LOOSE : ℝ := 1e-4

/-- A three-component vector of real numbers, modelling the class Vec3. -/
@[ext]
structure Vec3R where
  x : ℝ
  y : ℝ
  z : ℝ

/-- The zero vector, Vec3.zero(). -/
def Vec3R.zero : Vec3R := ⟨0, 0, 0⟩

/-- Vec3.prototype.length: Math.sqrt(x*x + y*y + z*z). -/
def Vec3R.length (v : Vec3R) : ℝ :=
  Real.sqrt (v.x * v.x + v.y * v.y + v.z * v.z)

/-- Vec3.prototype.lengthSq. -/
def Vec3R.lengthSq (v : Vec3R) : ℝ :=
  v.x * v.x + v.y * v.y + v.z * v.z

/-- Instance-convention normalize: computes len = length(); when
len > EPSILON it scales this by 1/len, otherwise it leaves the vector
unchanged (Vec3.ts lines 183-192). -/
def Vec3R.normalize (v : Vec3R) : Vec3R :=
  let len := v.length
  if len > EPSILON then
    let invLen := 1 / len
    ⟨v.x * invLen, v.y * invLen, v.z * invLen⟩
  else
    v

/-- Static-convention Vec3.normalize(v, out): computes
len = sqrt(x*x+y*y+z*z); when len > EPSILON it writes v/len into out,
otherwise it writes the zero vector into out (Vec3.ts lines 381-395). -/
def Vec3R.normalizeS (v : Vec3R) : Vec3R :=
  let len := Real.sqrt (v.x * v.x + v.y * v.y + v.z * v.z)
  if len > EPSILON then
    let invLen := 1 / len
    ⟨v.x * invLen, v.y * invLen, v.z * invLen⟩
  else
    ⟨0, 0, 0⟩

/-- When the length guard passes, the instance normalize rescales by the
reciprocal length. -/
theorem Vec3R.normalize_of_guard (v : Vec3R) (h : EPSILON < v.length) :
    v.normalize = ⟨v.x * (1 / v.length), v.y * (1 / v.length), v.z * (1 / v.length)⟩ := by
  unfold Vec3R.normalize
  simp only [gt_iff_lt, if_pos h]

/-- When the length guard fails, the instance normalize is the identity. -/
theorem Vec3R.normalize_of_small (v : Vec3R) (h : ¬ EPSILON < v.length) :
    v.normalize = v := by
  unfold Vec3R.normalize
  simp only [gt_iff_lt, if_neg h]

/-- The static normalize agrees with the instance normalize on the guarded
branch and writes the zero vector otherwise. -/
theorem Vec3R.normalizeS_eq (v : Vec3R) :
    v.normalizeS = if EPSILON < v.length then v.normalize else Vec3R.zero := by
  unfold Vec3R.normalizeS Vec3R.normalize Vec3R.length Vec3R.zero
  by_cases h : EPSILON < Real.sqrt (v.x * v.x + v.y * v.y + v.z * v.z) <;>
    simp only [gt_iff_lt, if_pos, if_neg, h, if_true, if_false]

/-- The squared length identity for the real square root. -/
theorem Vec3R.length_mul_self (v : Vec3R) :
    v.length * v.length = v.x * v.x + v.y * v.y + v.z * v.z := by
  unfold Vec3R.length
  exact Real.mul_self_sqrt
    (add_nonneg (add_nonneg (mul_self_nonneg _) (mul_self_nonneg _)) (mul_self_nonneg _))

/-- A vector whose length exceeds the epsilon guard normalizes to an exactly
unit-length vector. -/
theorem Vec3R.length_normalize (v : Vec3R) (h : EPSILON < v.length) :
    (v.normalize).length = 1 := by
  have hl0 : 0 < v.length := lt_trans (by norm_num [EPSILON]) h
  have hsq := v.length_mul_self
  rw [v.normalize_of_guard h]
  unfold Vec3R.length at *
  have hne : Real.sqrt (v.x * v.x + v.y * v.y + v.z * v.z) ≠ 0 := ne_of_gt hl0
  have : v.x * (1 / Real.sqrt (v.x * v.x + v.y * v.y + v.z * v.z)) *
        (v.x * (1 / Real.sqrt (v.x * v.x + v.y * v.y + v.z * v.z))) +
      v.y * (1 / Real.sqrt (v.x * v.x + v.y * v.y + v.z * v.z)) *
        (v.y * (1 / Real.sqrt (v.x * v.x + v.y * v.y + v.z * v.z))) +
      v.z * (1 / Real.sqrt (v.x * v.x + v.y * v.y + v.z * v.z)) *
        (v.z * (1 / Real.sqrt (v.x * v.x + v.y * v.y + v.z * v.z))) = 1 := by
    field_simp
    linarith [hsq]
  rw [this, Real.sqrt_one]

/-- The length of the vector (1e-7, 0, 0) evaluates to 1e-7. -/
theorem Vec3R.length_tiny : Vec3R.length ⟨1e-7, 0, 0⟩ = 1e-7 := by
  unfold Vec3R.length
  rw [show ((1e-7 : ℝ) * 1e-7 + 0 * 0 + 0 * 0) = (1e-7 : ℝ) ^ 2 by norm_num]
  exact Real.sqrt_sq (by norm_num)

/-- C3 counterexample: on the vector (1e-7, 0, 0), whose length 1e-7 is below
the epsilon guard, the in-place instance convention v.normalize() leaves the
vector unchanged while the static convention Vec3.normalize(v, out) writes the
zero vector, so the two conventions do not produce identical numeric results. -/
theorem normalize_instance_static_differ :
    Vec3R.normalize ⟨1e-7, 0, 0⟩ ≠ Vec3R.normalizeS ⟨1e-7, 0, 0⟩ := by
  have hlen : Vec3R.length ⟨1e-7, 0, 0⟩ = 1e-7 := Vec3R.length_tiny
  have hsmall : ¬ EPSILON < Vec3R.length ⟨1e-7, 0, 0⟩ := by
    rw [hlen]; norm_num [EPSILON]
  rw [Vec3R.normalize_of_small _ hsmall, Vec3R.normalizeS_eq, if_neg hsmall]
  intro h
  have hx := congrArg Vec3R.x h
  norm_num [Vec3R.zero] at hx

/-- C3 (amended): the in-place instance convention v.normalize() and the
static convention Vec3.normalize(v, out) produce identical numeric results on
every vector whose length exceeds epsilon (1e-6); on vectors whose length is
at or below epsilon they differ in general: the instance form leaves the
vector unchanged while the static form writes the zero vector (the two
agree there only for the zero vector itself). -/
theorem normalize_conventions_agree (v : Vec3R) :
    (EPSILON < v.length → v.normalize = v.normalizeS)
    ∧ (¬ EPSILON < v.length → v.normalize = v ∧ v.normalizeS = Vec3R.zero) := by
  refine ⟨fun h => ?_, fun h => ?_⟩
  · rw [Vec3R.normalizeS_eq, if_pos h]
  · exact ⟨Vec3R.normalize_of_small v h, by rw [Vec3R.normalizeS_eq, if_neg h]⟩

/-- C3 witness: the two normalize conventions agree at the concrete vector
(3, 0, 0). -/
theorem normalize_conventions_agree_witness :
    Vec3R.normalize ⟨3, 0, 0⟩ = Vec3R.normalizeS ⟨3, 0, 0⟩ := by
  apply (normalize_conventions_agree ⟨3, 0, 0⟩).1
  unfold Vec3R.length
  rw [show ((3 : ℝ) * 3 + 0 * 0 + 0 * 0) = (3 : ℝ) ^ 2 by norm_num,
    Real.sqrt_sq (by norm_num)]
  norm_num [EPSILON]

/-- C4 counterexample: the vector (1e-7, 0, 0) has length at most 1e-6, yet
the instance normalize does not return the zero vector (it returns the input)
and the static normalize does not leave the input unchanged (it returns the
zero vector), so the clause that the result is the zero vector unchanged
fails for both conventions. -/
theorem normalize_tiny_not_zero_unchanged :
    Vec3R.length ⟨1e-7, 0, 0⟩ ≤ 1e-6
    ∧ Vec3R.normalize ⟨1e-7, 0, 0⟩ ≠ Vec3R.zero
    ∧ Vec3R.normalizeS ⟨1e-7, 0, 0⟩ ≠ ⟨1e-7, 0, 0⟩ := by
  have hlen : Vec3R.length ⟨1e-7, 0, 0⟩ = 1e-7 := Vec3R.length_tiny
  have hsmall : ¬ EPSILON < Vec3R.length ⟨1e-7, 0, 0⟩ := by
    rw [hlen]; norm_num [EPSILON]
  refine ⟨by rw [hlen]; norm_num, ?_, ?_⟩
  · rw [Vec3R.normalize_of_small _ hsmall]
    intro h
    have hx := congrArg Vec3R.x h
    norm_num [Vec3R.zero] at hx
  · rw [Vec3R.normalizeS_eq, if_neg hsmall]
    intro h
    have hx := congrArg Vec3R.x h
    norm_num [Vec3R.zero] at hx

/-- C4 (amended): for every vector v with length(v) greater than 1e-6, both
normalize conventions produce a vector of length 1 within 1e-5 (in the exact
real model, exactly 1); when length(v) is at or below 1e-6 the instance form
returns v unchanged and the static form returns the zero vector, so the
result is the zero vector unchanged exactly when v is the zero vector. -/
theorem normalize_unit_or_small (v : Vec3R) :
    (1e-6 < v.length →
      |(v.normalize).length - 1| ≤ 1e-5 ∧ |(v.normalizeS).length - 1| ≤ 1e-5)
    ∧ (v.length ≤ 1e-6 → v.normalize = v ∧ v.normalizeS = Vec3R.zero) := by
  have heps : EPSILON = (1e-6 : ℝ) := rfl
  refine ⟨fun h => ?_, fun h => ?_⟩
  · have h2 : EPSILON < v.length := by rw [heps]; exact h
    have h3 := Vec3R.length_normalize v h2
    have h4 : v.normalizeS = v.normalize := by rw [Vec3R.normalizeS_eq, if_pos h2]
    rw [h4, h3]
    norm_num
  · have h2 : ¬ EPSILON < v.length := by rw [heps]; exact not_lt.mpr h
    exact ⟨Vec3R.normalize_of_small v h2, by rw [Vec3R.normalizeS_eq, if_neg h2]⟩

/-- C4 witness: the concrete vector (3, 0, 0) normalizes to a vector of
length 1 within 1e-5. -/
theorem normalize_unit_or_small_witness :
    |(Vec3R.normalize ⟨3, 0, 0⟩).length - 1| ≤ 1e-5 := by
  refine ((normalize_unit_or_small ⟨3, 0, 0⟩).1 ?_).1
  unfold Vec3R.length
  rw [show ((3 : ℝ) * 3 + 0 * 0 + 0 * 0) = (3 : ℝ) ^ 2 by norm_num,
    Real.sqrt_sq (by norm_num)]
  norm_num

/-- A 4x4 column-major matrix of real numbers, modelling the class Mat4;
fields are named by column-major flat index exactly as in the source. -/
@[ext]
structure Mat4R where
  m00 : ℝ
  m01 : ℝ
  m02 : ℝ
  m03 : ℝ
  m04 : ℝ
  m05 : ℝ
  m06 : ℝ
  m07 : ℝ
  m08 : ℝ
  m09 : ℝ
  m10 : ℝ
  m11 : ℝ
  m12 : ℝ
  m13 : ℝ
  m14 : ℝ
  m15 : ℝ

/-- The identity matrix produced by the default Mat4 constructor. -/
def Mat4R.identity : Mat4R :=
  ⟨1, 0, 0, 0, 0, 1, 0, 0, 0, 0, 1, 0, 0, 0, 0, 1⟩

/-- The 2x2 subdeterminant b00 = a00*a11 - a01*a10 computed by both
Mat4.invert and Mat4.determinant. -/
def Mat4R.b00 (M : Mat4R) : ℝ := M.m00 * M.m05 - M.m01 * M.m04

/-- The 2x2 subdeterminant b01 = a00*a12 - a02*a10. -/
def Mat4R.b01 (M : Mat4R) : ℝ := M.m00 * M.m06 - M.m02 * M.m04

/-- The 2x2 subdeterminant b02 = a00*a13 - a03*a10. -/
def Mat4R.b02 (M : Mat4R) : ℝ := M.m00 * M.m07 - M.m03 * M.m04

/-- The 2x2 subdeterminant b03 = a01*a12 - a02*a11. -/
def Mat4R.b03 (M : Mat4R) : ℝ := M.m01 * M.m06 - M.m02 * M.m05

/-- The 2x2 subdeterminant b04 = a01*a13 - a03*a11. -/
def Mat4R.b04 (M : Mat4R) : ℝ := M.m01 * M.m07 - M.m03 * M.m05

/-- The 2x2 subdeterminant b05 = a02*a13 - a03*a12. -/
def Mat4R.b05 (M : Mat4R) : ℝ := M.m02 * M.m07 - M.m03 * M.m06

/-- The 2x2 subdeterminant b06 = a20*a31 - a21*a30. -/
def Mat4R.b06 (M : Mat4R) : ℝ := M.m08 * M.m13 - M.m09 * M.m12

/-- The 2x2 subdeterminant b07 = a20*a32 - a22*a30. -/
def Mat4R.b07 (M : Mat4R) : ℝ := M.m08 * M.m14 - M.m10 * M.m12

/-- The 2x2 subdeterminant b08 = a20*a33 - a23*a30. -/
def Mat4R.b08 (M : Mat4R) : ℝ := M.m08 * M.m15 - M.m11 * M.m12

/-- The 2x2 subdeterminant b09 = a21*a32 - a22*a31. -/
def Mat4R.b09 (M : Mat4R) : ℝ := M.m09 * M.m14 - M.m10 * M.m13

/-- The 2x2 subdeterminant b10 = a21*a33 - a23*a31. -/
def Mat4R.b10 (M : Mat4R) : ℝ := M.m09 * M.m15 - M.m11 * M.m13

/-- The 2x2 subdeterminant b11 = a22*a33 - a23*a32. -/
def Mat4R.b11 (M : Mat4R) : ℝ := M.m10 * M.m15 - M.m11 * M.m14

/-- Mat4.prototype.determinant (Mat4.ts lines 294-314): the full cofactor
expansion b00*b11 - b01*b10 + b02*b09 + b03*b08 - b04*b07 + b05*b06. -/
def Mat4R.determinant (M : Mat4R) : ℝ :=
  M.b00 * M.b11 - M.b01 * M.b10 + M.b02 * M.b09 + M.b03 * M.b08 -
    M.b04 * M.b07 + M.b05 * M.b06

/-- The guard quantity computed locally by Mat4.prototype.invert at
Mat4.ts line 266, written out from that function. -/
def Mat4R.invertDet (M : Mat4R) : ℝ :=
  M.b00 * M.b11 - M.b01 * M.b10 + M.b02 * M.b09 + M.b03 * M.b08 -
    M.b04 * M.b07 + M.b05 * M.b06

/-- Mat4.prototype.invert (Mat4.ts lines 247-292): cofactor-expansion
inverse with the silent no-op branch when det < EPSILON and
det > -EPSILON. -/
def Mat4R.invert (M : Mat4R) : Mat4R :=
  let det := M.b00 * M.b11 - M.b01 * M.b10 + M.b02 * M.b09 + M.b03 * M.b08 -
    M.b04 * M.b07 + M.b05 * M.b06
  if det < EPSILON ∧ det > -EPSILON then M
  else
    let d := 1 / det
    { m00 := (M.m05 * M.b11 - M.m06 * M.b10 + M.m07 * M.b09) * d
      m01 := (M.m02 * M.b10 - M.m01 * M.b11 - M.m03 * M.b09) * d
      m02 := (M.m13 * M.b05 - M.m14 * M.b04 + M.m15 * M.b03) * d
      m03 := (M.m10 * M.b04 - M.m09 * M.b05 - M.m11 * M.b03) * d
      m04 := (M.m06 * M.b08 - M.m04 * M.b11 - M.m07 * M.b07) * d
      m05 := (M.m00 * M.b11 - M.m02 * M.b08 + M.m03 * M.b07) * d
      m06 := (M.m14 * M.b02 - M.m12 * M.b05 - M.m15 * M.b01) * d
      m07 := (M.m08 * M.b05 - M.m10 * M.b02 + M.m11 * M.b01) * d
      m08 := (M.m04 * M.b10 - M.m05 * M.b08 + M.m07 * M.b06) * d
      m09 := (M.m01 * M.b08 - M.m00 * M.b10 - M.m03 * M.b06) * d
      m10 := (M.m12 * M.b04 - M.m13 * M.b02 + M.m15 * M.b00) * d
      m11 := (M.m09 * M.b02 - M.m08 * M.b04 - M.m11 * M.b00) * d
      m12 := (M.m05 * M.b07 - M.m04 * M.b09 - M.m06 * M.b06) * d
      m13 := (M.m00 * M.b09 - M.m01 * M.b07 + M.m02 * M.b06) * d
      m14 := (M.m13 * M.b01 - M.m12 * M.b03 - M.m14 * M.b00) * d
      m15 := (M.m08 * M.b03 - M.m09 * M.b01 + M.m10 * M.b00) * d }

/-- The static Mat4.multiply(a, b, out) (Mat4.ts lines 380-413):
conventional column-major product out = a * b. -/
def Mat4R.multiplyS (a b : Mat4R) : Mat4R :=
  { m00 := b.m00 * a.m00 + b.m01 * a.m04 + b.m02 * a.m08 + b.m03 * a.m12
    m01 := b.m00 * a.m01 + b.m01 * a.m05 + b.m02 * a.m09 + b.m03 * a.m13
    m02 := b.m00 * a.m02 + b.m01 * a.m06 + b.m02 * a.m10 + b.m03 * a.m14
    m03 := b.m00 * a.m03 + b.m01 * a.m07 + b.m02 * a.m11 + b.m03 * a.m15
    m04 := b.m04 * a.m00 + b.m05 * a.m04 + b.m06 * a.m08 + b.m07 * a.m12
    m05 := b.m04 * a.m01 + b.m05 * a.m05 + b.m06 * a.m09 + b.m07 * a.m13
    m06 := b.m04 * a.m02 + b.m05 * a.m06 + b.m06 * a.m10 + b.m07 * a.m14
    m07 := b.m04 * a.m03 + b.m05 * a.m07 + b.m06 * a.m11 + b.m07 * a.m15
    m08 := b.m08 * a.m00 + b.m09 * a.m04 + b.m10 * a.m08 + b.m11 * a.m12
    m09 := b.m08 * a.m01 + b.m09 * a.m05 + b.m10 * a.m09 + b.m11 * a.m13
    m10 := b.m08 * a.m02 + b.m09 * a.m06 + b.m10 * a.m10 + b.m11 * a.m14
    m11 := b.m08 * a.m03 + b.m09 * a.m07 + b.m10 * a.m11 + b.m11 * a.m15
    m12 := b.m12 * a.m00 + b.m13 * a.m04 + b.m14 * a.m08 + b.m15 * a.m12
    m13 := b.m12 * a.m01 + b.m13 * a.m05 + b.m14 * a.m09 + b.m15 * a.m13
    m14 := b.m12 * a.m02 + b.m13 * a.m06 + b.m14 * a.m10 + b.m15 * a.m14
    m15 := b.m12 * a.m03 + b.m13 * a.m07 + b.m14 * a.m11 + b.m15 * a.m15 }

/-- Componentwise closeness of two matrices within a tolerance. -/
def Mat4R.within (eps : ℝ) (A B : Mat4R) : Prop :=
  |A.m00 - B.m00| ≤ eps ∧ |A.m01 - B.m01| ≤ eps ∧ |A.m02 - B.m02| ≤ eps ∧
  |A.m03 - B.m03| ≤ eps ∧ |A.m04 - B.m04| ≤ eps ∧ |A.m05 - B.m05| ≤ eps ∧
  |A.m06 - B.m06| ≤ eps ∧ |A.m07 - B.m07| ≤ eps ∧ |A.m08 - B.m08| ≤ eps ∧
  |A.m09 - B.m09| ≤ eps ∧ |A.m10 - B.m10| ≤ eps ∧ |A.m11 - B.m11| ≤ eps ∧
  |A.m12 - B.m12| ≤ eps ∧ |A.m13 - B.m13| ≤ eps ∧ |A.m14 - B.m14| ≤ eps ∧
  |A.m15 - B.m15| ≤ eps

/-- Structural form of Mat4.invert with the guard condition written through
the determinant, which is definitionally the locally recomputed value. -/
theorem Mat4R.invert_eq (M : Mat4R) :
    M.invert = if M.determinant < EPSILON ∧ M.determinant > -EPSILON then M
      else
        { m00 := (M.m05 * M.b11 - M.m06 * M.b10 + M.m07 * M.b09) * (1 / M.determinant)
          m01 := (M.m02 * M.b10 - M.m01 * M.b11 - M.m03 * M.b09) * (1 / M.determinant)
          m02 := (M.m13 * M.b05 - M.m14 * M.b04 + M.m15 * M.b03) * (1 / M.determinant)
          m03 := (M.m10 * M.b04 - M.m09 * M.b05 - M.m11 * M.b03) * (1 / M.determinant)
          m04 := (M.m06 * M.b08 - M.m04 * M.b11 - M.m07 * M.b07) * (1 / M.determinant)
          m05 := (M.m00 * M.b11 - M.m02 * M.b08 + M.m03 * M.b07) * (1 / M.determinant)
          m06 := (M.m14 * M.b02 - M.m12 * M.b05 - M.m15 * M.b01) * (1 / M.determinant)
          m07 := (M.m08 * M.b05 - M.m10 * M.b02 + M.m11 * M.b01) * (1 / M.determinant)
          m08 := (M.m04 * M.b10 - M.m05 * M.b08 + M.m07 * M.b06) * (1 / M.determinant)
          m09 := (M.m01 * M.b08 - M.m00 * M.b10 - M.m03 * M.b06) * (1 / M.determinant)
          m10 := (M.m12 * M.b04 - M.m13 * M.b02 + M.m15 * M.b00) * (1 / M.determinant)
          m11 := (M.m09 * M.b02 - M.m08 * M.b04 - M.m11 * M.b00) * (1 / M.determinant)
          m12 := (M.m05 * M.b07 - M.m04 * M.b09 - M.m06 * M.b06) * (1 / M.determinant)
          m13 := (M.m00 * M.b09 - M.m01 * M.b07 + M.m02 * M.b06) * (1 / M.determinant)
          m14 := (M.m13 * M.b01 - M.m12 * M.b03 - M.m14 * M.b00) * (1 / M.determinant)
          m15 := (M.m08 * M.b03 - M.m09 * M.b01 + M.m10 * M.b00) * (1 / M.determinant) } :=
  rfl

/-- The determinant of the identity matrix is 1. -/
theorem Mat4R.determinant_identity : Mat4R.determinant Mat4R.identity = 1 := by
  norm_num [Mat4R.determinant, Mat4R.identity, Mat4R.b00, Mat4R.b01, Mat4R.b02,
    Mat4R.b03, Mat4R.b04, Mat4R.b05, Mat4R.b06, Mat4R.b07, Mat4R.b08, Mat4R.b09,
    Mat4R.b10, Mat4R.b11]

set_option maxHeartbeats 3000000 in
/-- Multiplying a matrix by its computed cofactor inverse yields the exact
identity whenever the guard branch is not taken and the determinant is
nonzero. -/
theorem Mat4R.multiplyS_invert (M : Mat4R)
    (hg : ¬ (M.determinant < EPSILON ∧ M.determinant > -EPSILON))
    (hd : M.determinant ≠ 0) :
    Mat4R.multiplyS M M.invert = Mat4R.identity := by
  rw [Mat4R.invert_eq, if_neg hg]
  ext <;>
    simp only [Mat4R.multiplyS, Mat4R.identity, Mat4R.determinant, Mat4R.b00, Mat4R.b01,
      Mat4R.b02, Mat4R.b03, Mat4R.b04, Mat4R.b05, Mat4R.b06, Mat4R.b07, Mat4R.b08,
      Mat4R.b09, Mat4R.b10, Mat4R.b11] at hd ⊢ <;>
    field_simp <;>
    ring

/-- C1 counterexample: the identity matrix has determinant 1, whose magnitude
is not below 1e-6, yet Mat4.invert leaves it unchanged (its computed inverse
coincides with the input), so a matrix is not left unchanged exactly when the
determinant magnitude is below epsilon. -/
theorem invert_identity_fixed_large_det :
    Mat4R.invert Mat4R.identity = Mat4R.identity
    ∧ ¬ |Mat4R.determinant Mat4R.identity| < 1e-6 := by
  constructor
  · rw [Mat4R.invert_eq]
    rw [if_neg (by rw [Mat4R.determinant_identity]; norm_num [EPSILON])]
    rw [Mat4R.determinant_identity]
    ext <;>
      norm_num [Mat4R.identity, Mat4R.b00, Mat4R.b01, Mat4R.b02, Mat4R.b03,
        Mat4R.b04, Mat4R.b05, Mat4R.b06, Mat4R.b07, Mat4R.b08, Mat4R.b09,
        Mat4R.b10, Mat4R.b11]
  · rw [Mat4R.determinant_identity]
    norm_num

/-- C1 (amended): the guard quantity that Mat4.invert compares against
epsilon is exactly the value returned by Mat4.determinant(); the no-op guard
branch is taken exactly when the magnitude of determinant() is below 1e-6,
and whenever that magnitude is below 1e-6 invert leaves all 16 components
unchanged and raises no error.  (A matrix can also be left unchanged outside
the guard, e.g. the identity, so being unchanged is not equivalent to the
determinant test.) -/
theorem invert_guard_is_determinant (M : Mat4R) :
    M.invertDet = M.determinant
    ∧ ((M.determinant < EPSILON ∧ M.determinant > -EPSILON) ↔ |M.determinant| < 1e-6)
    ∧ (|M.determinant| < 1e-6 → M.invert = M) := by
  refine ⟨rfl, ?_, ?_⟩
  · rw [show EPSILON = (1e-6 : ℝ) from rfl, abs_lt]
    exact ⟨fun h => ⟨h.2, h.1⟩, fun h => ⟨h.2, h.1⟩⟩
  · intro h
    rw [show (1e-6 : ℝ) = EPSILON from rfl, abs_lt] at h
    rw [Mat4R.invert_eq, if_pos ⟨h.2, h.1⟩]

/-- C1 witness: on the all-zero matrix, whose determinant is 0, invert is a
no-op. -/
theorem invert_guard_is_determinant_witness :
    Mat4R.invert ⟨0, 0, 0, 0, 0, 0, 0, 0, 0, 0, 0, 0, 0, 0, 0, 0⟩ =
      ⟨0, 0, 0, 0, 0, 0, 0, 0, 0, 0, 0, 0, 0, 0, 0, 0⟩ := by
  apply (invert_guard_is_determinant _).2.2
  norm_num [Mat4R.determinant, Mat4R.b00, Mat4R.b01, Mat4R.b02, Mat4R.b03,
    Mat4R.b04, Mat4R.b05, Mat4R.b06, Mat4R.b07, Mat4R.b08, Mat4R.b09,
    Mat4R.b10, Mat4R.b11]

/-- C2: for every matrix M whose determinant magnitude exceeds 1e-6, the
product multiply(M, invert(M)) is within 1e-4 of the identity matrix in
every one of the 16 components (in the exact real model the product is
exactly the identity). -/
theorem multiply_invert_approx_identity (M : Mat4R) (h : 1e-6 < |M.determinant|) :
    Mat4R.within 1e-4 (Mat4R.multiplyS M M.invert) Mat4R.identity := by
  have hg : ¬ (M.determinant < EPSILON ∧ M.determinant > -EPSILON) := by
    rintro ⟨h1, h2⟩
    rw [show EPSILON = (1e-6 : ℝ) from rfl] at h1 h2
    have := abs_lt.mpr ⟨h2, h1⟩
    linarith
  have hd : M.determinant ≠ 0 := by
    intro h0
    rw [h0, abs_zero] at h
    norm_num at h
  rw [Mat4R.multiplyS_invert M hg hd]
  unfold Mat4R.within
  norm_num

/-- C2 witness: the identity matrix has determinant magnitude 1 above 1e-6,
and multiplying it by its computed inverse stays within 1e-4 of identity. -/
theorem multiply_invert_approx_identity_witness :
    Mat4R.within 1e-4
      (Mat4R.multiplyS Mat4R.identity (Mat4R.invert Mat4R.identity)) Mat4R.identity := by
  apply multiply_invert_approx_identity
  rw [Mat4R.determinant_identity]
  norm_num

/-- Truncation toward zero of a rational, as performed by the JavaScript
remainder operator when computing a % b = a - b * trunc(a/b). -/
def truncQ (q : ℚ) : ℤ := if q < 0 then Int.ceil q else Int.floor q

/-- The JavaScript remainder a % b on finite rationals: NaN (modelled as
none) when b = 0, otherwise the exact value a - b * trunc(a/b). -/
def jsRemQ (a b : ℚ) : Option ℚ :=
  if b = 0 then none else some (a - b * (truncQ (a / b) : ℚ))

/-- The JavaScript remainder lifted to a possibly-NaN left operand: NaN
propagates. -/
def jsRemOQ : Option ℚ → ℚ → Option ℚ
  | none, _ => none
  | some a, b => jsRemQ a b

/-- JavaScript addition of a possibly-NaN value and a finite value: NaN
propagates. -/
def addOQ : Option ℚ → ℚ → Option ℚ
  | none, _ => none
  | some a, b => some (a + b)

/-- The helper mod from polyfills.ts lines 194-196:
mod(a, b) = ((a % b) + b) % b, with none playing the role of NaN. -/
def modQ (a b : ℚ) : Option ℚ := jsRemOQ (addOQ (jsRemQ a b) b) b

/-- The helper inverseLerp from polyfills.ts lines 128-132: the denominator
b - a is compared against zero and the function returns 0 in that case. -/
def inverseLerpQ (a b value : ℚ) : ℚ :=
  let denom := b - a
  if denom = 0 then 0 else (value - a) / denom

/-- C9 counterexample: mod(1, 0) evaluates to NaN, because the JavaScript
remainder 1 % 0 is NaN and NaN propagates through the remaining additions
and remainders, so mod is not NaN-free at b = 0. -/
theorem mod_zero_divisor_nan : modQ 1 0 = none := by
  simp [modQ, jsRemQ, addOQ, jsRemOQ]

/-- C9 (amended): inverseLerp(a, a, value) returns 0 for all a and value
thanks to the explicit zero-denominator guard, and mod(a, b) returns a
finite (non-NaN) value for every b different from 0; for b = 0, however,
mod(a, 0) is NaN, since the remainder by zero has no guard. -/
theorem scalar_helpers_guarded (a b value : ℚ) :
    inverseLerpQ a a value = 0
    ∧ (b ≠ 0 → ∃ r : ℚ, modQ a b = some r)
    ∧ modQ a 0 = none := by
  refine ⟨by simp [inverseLerpQ], fun hb => ?_, by simp [modQ, jsRemQ, addOQ, jsRemOQ]⟩
  simp [modQ, jsRemQ, addOQ, jsRemOQ, hb]

/-- C9 witness: inverseLerp(2, 2, 7) is 0 and mod(5, 3) is finite. -/
theorem scalar_helpers_guarded_witness :
    inverseLerpQ 2 2 7 = 0 ∧ ∃ r : ℚ, modQ 5 3 = some r :=
  ⟨(scalar_helpers_guarded 2 3 7).1, (scalar_helpers_guarded 5 3 7).2.1 (by norm_num)⟩

open scoped Classical

/-- A JavaScript double with its special values: NaN, positive and negative
Infinity, and finite values whose arithmetic is idealised as exact real
arithmetic (negative zero and rounding are not modelled). -/
inductive JsF where
  | nan : JsF
  | inf : JsF
  | ninf : JsF
  | fin : ℝ → JsF

/-- The JavaScript strict less-than comparison: any comparison involving
NaN is false, negative Infinity is below and positive Infinity above every
other value. -/
def JsF.lt : JsF → JsF → Prop
  | .nan, _ => False
  | _, .nan => False
  | .inf, _ => False
  | .ninf, .ninf => False
  | .ninf, _ => True
  | .fin _, .inf => True
  | .fin _, .ninf => False
  | .fin a, .fin b => a < b

/-- The JavaScript less-or-equal comparison: false when either operand is
NaN, otherwise the usual extended-real order. -/
def JsF.le : JsF → JsF → Prop
  | .nan, _ => False
  | _, .nan => False
  | .ninf, _ => True
  | .inf, .inf => True
  | .inf, _ => False
  | .fin _, .inf => True
  | .fin _, .ninf => False
  | .fin a, .fin b => a ≤ b

/-- Negation of a JavaScript double. -/
def JsF.neg : JsF → JsF
  | .nan => .nan
  | .inf => .ninf
  | .ninf => .inf
  | .fin a => .fin (-a)

/-- The product of positive Infinity with a finite value: the sign of the
finite factor decides the sign of the infinity, and zero times Infinity is
NaN. -/
def JsF.sgnInf (x : ℝ) : JsF :=
  if 0 < x then .inf else if x < 0 then .ninf else .nan

/-- JavaScript addition: NaN propagates, opposite infinities give NaN. -/
def JsF.add : JsF → JsF → JsF
  | .nan, _ => .nan
  | _, .nan => .nan
  | .inf, .ninf => .nan
  | .ninf, .inf => .nan
  | .inf, _ => .inf
  | _, .inf => .inf
  | .ninf, _ => .ninf
  | _, .ninf => .ninf
  | .fin a, .fin b => .fin (a + b)

/-- JavaScript subtraction, which behaves as addition of the negation. -/
def JsF.sub (a b : JsF) : JsF := a.add b.neg

/-- JavaScript multiplication: NaN propagates, zero times an infinity is
NaN, otherwise signs multiply. -/
def JsF.mul : JsF → JsF → JsF
  | .nan, _ => .nan
  | _, .nan => .nan
  | .inf, .inf => .inf
  | .inf, .ninf => .ninf
  | .ninf, .inf => .ninf
  | .ninf, .ninf => .inf
  | .inf, .fin b => JsF.sgnInf b
  | .fin a, .inf => JsF.sgnInf a
  | .ninf, .fin b => (JsF.sgnInf b).neg
  | .fin a, .ninf => (JsF.sgnInf a).neg
  | .fin a, .fin b => .fin (a * b)

/-- JavaScript division: NaN propagates, infinity over infinity is NaN, a
nonzero finite value over zero gives a signed infinity, zero over zero is
NaN, a finite value over an infinity is zero (negative zero is not
modelled). -/
def JsF.div : JsF → JsF → JsF
  | .nan, _ => .nan
  | _, .nan => .nan
  | .inf, .inf => .nan
  | .inf, .ninf => .nan
  | .ninf, .inf => .nan
  | .ninf, .ninf => .nan
  | .inf, .fin b => if b < 0 then .ninf else .inf
  | .ninf, .fin b => if b < 0 then .inf else .ninf
  | .fin _, .inf => .fin 0
  | .fin _, .ninf => .fin 0
  | .fin a, .fin b =>
    if b = 0 then (if 0 < a then .inf else if a < 0 then .ninf else .nan)
    else .fin (a / b)

/-- Finiteness predicate on JavaScript doubles, as tested by isFinite. -/
def JsF.finite : JsF → Prop
  | .fin _ => True
  | _ => False

/-- A Vec3 whose components are JavaScript doubles. -/
@[ext]
structure Vec3J where
  x : JsF
  y : JsF
  z : JsF

/-- A quaternion whose components are JavaScript doubles. -/
structure QuatJ where
  x : JsF
  y : JsF
  z : JsF
  w : JsF

/-- Quat.prototype.invert (Quat.ts lines 159-168) over JavaScript doubles:
len2 = x*x + y*y + z*z + w*w; a no-op when len2 < EPSILON, otherwise each
component is divided by len2 with the vector part negated. -/
def QuatJ.invert (q : QuatJ) : QuatJ :=
  let len2 := (((q.x.mul q.x).add (q.y.mul q.y)).add (q.z.mul q.z)).add (q.w.mul q.w)
  if len2.lt (.fin EPSILON) then q
  else
    let invLen2 := (JsF.fin 1).div len2
    ⟨(q.x.neg).mul invLen2, (q.y.neg).mul invLen2, (q.z.neg).mul invLen2, q.w.mul invLen2⟩

/-- Quat.prototype.transformVec3 (Quat.ts lines 394-412) over JavaScript
doubles: the expanded sandwich product q * (v, 0) * conj(q). -/
def QuatJ.transformVec3 (q : QuatJ) (v : Vec3J) : Vec3J :=
  let ix := ((q.w.mul v.x).add (q.y.mul v.z)).sub (q.z.mul v.y)
  let iy := ((q.w.mul v.y).add (q.z.mul v.x)).sub (q.x.mul v.z)
  let iz := ((q.w.mul v.z).add (q.x.mul v.y)).sub (q.y.mul v.x)
  let iw := (((q.x.neg).mul v.x).sub (q.y.mul v.y)).sub (q.z.mul v.z)
  ⟨(((ix.mul q.w).add (iw.mul q.x.neg)).add (iy.mul q.z.neg)).sub (iz.mul q.y.neg),
   (((iy.mul q.w).add (iw.mul q.y.neg)).add (iz.mul q.x.neg)).sub (ix.mul q.z.neg),
   (((iz.mul q.w).add (iw.mul q.z.neg)).add (ix.mul q.y.neg)).sub (iy.mul q.x.neg)⟩

/-- The numeric state of a Transform over JavaScript doubles (the cached
matrix and dirty flag are modelled separately with the real-valued
Transform state). -/
structure TransformJ where
  position : Vec3J
  rotation : QuatJ
  scale : Vec3J

/-- Transform.prototype.invert (Transform.ts lines 179-196) over JavaScript
doubles: each scale component is replaced by its unguarded reciprocal, the
rotation is inverted, and the position is negated, multiplied by the new
scale and rotated by the new rotation. -/
def TransformJ.invert (t : TransformJ) : TransformJ :=
  let sx := (JsF.fin 1).div t.scale.x
  let sy := (JsF.fin 1).div t.scale.y
  let sz := (JsF.fin 1).div t.scale.z
  let rot := t.rotation.invert
  let p1 : Vec3J := ⟨t.position.x.mul (.fin (-1)), t.position.y.mul (.fin (-1)),
    t.position.z.mul (.fin (-1))⟩
  let p2 : Vec3J := ⟨p1.x.mul sx, p1.y.mul sy, p1.z.mul sz⟩
  { position := rot.transformVec3 p2, rotation := rot, scale := ⟨sx, sy, sz⟩ }

/-- C7: Transform.invert stores the unguarded componentwise reciprocal of
the scale, so on every Transform with a zero scale component the
corresponding inverted scale component is non-finite (positive Infinity in
the model without negative zero); there is no guarded silent-failure
branch. -/
theorem transform_invert_zero_scale (t : TransformJ) :
    (t.invert).scale = ⟨(JsF.fin 1).div t.scale.x, (JsF.fin 1).div t.scale.y,
      (JsF.fin 1).div t.scale.z⟩
    ∧ (t.scale.x = JsF.fin 0 → ¬ (t.invert).scale.x.finite)
    ∧ (t.scale.y = JsF.fin 0 → ¬ (t.invert).scale.y.finite)
    ∧ (t.scale.z = JsF.fin 0 → ¬ (t.invert).scale.z.finite) := by
  refine ⟨rfl, fun hx => ?_, fun hy => ?_, fun hz => ?_⟩
  · show ¬ ((JsF.fin 1).div t.scale.x).finite
    rw [hx]
    simp [JsF.div, JsF.finite]
  · show ¬ ((JsF.fin 1).div t.scale.y).finite
    rw [hy]
    simp [JsF.div, JsF.finite]
  · show ¬ ((JsF.fin 1).div t.scale.z).finite
    rw [hz]
    simp [JsF.div, JsF.finite]

/-- C7 witness: inverting the concrete Transform with scale (0, 1, 1)
produces a non-finite x scale component. -/
theorem transform_invert_zero_scale_witness :
    ¬ (TransformJ.invert
        ⟨⟨.fin 0, .fin 0, .fin 0⟩, ⟨.fin 0, .fin 0, .fin 0, .fin 1⟩,
          ⟨.fin 0, .fin 1, .fin 1⟩⟩).scale.x.finite :=
  (transform_invert_zero_scale _).2.1 rfl

/-- An axis-aligned bounding box over JavaScript doubles, modelling the
class AABB with min and max corner vectors. -/
structure AABBJ where
  min : Vec3J
  max : Vec3J

/-- The canonical empty box written by the AABB constructor (AABB.ts lines
8-12): min = (+Infinity, +Infinity, +Infinity) and
max = (-Infinity, -Infinity, -Infinity). -/
def AABBJ.empty : AABBJ :=
  ⟨⟨.inf, .inf, .inf⟩, ⟨.ninf, .ninf, .ninf⟩⟩

/-- AABB.prototype.expandByPoint (AABB.ts lines 68-76): componentwise
conditional assignment of the new point into min and max. -/
def AABBJ.expandByPoint (b : AABBJ) (x y z : JsF) : AABBJ :=
  { min := ⟨if JsF.lt x b.min.x then x else b.min.x,
            if JsF.lt y b.min.y then y else b.min.y,
            if JsF.lt z b.min.z then z else b.min.z⟩
    max := ⟨if JsF.lt b.max.x x then x else b.max.x,
            if JsF.lt b.max.y y then y else b.max.y,
            if JsF.lt b.max.z z then z else b.max.z⟩ }

/-- AABB.prototype.isEmpty (AABB.ts lines 131-133): some axis has
max < min. -/
def AABBJ.isEmpty (b : AABBJ) : Prop :=
  JsF.lt b.max.x b.min.x ∨ JsF.lt b.max.y b.min.y ∨ JsF.lt b.max.z b.min.z

/-- AABB.prototype.containsPoint (AABB.ts lines 173-177): closed-interval
comparisons on every axis. -/
def AABBJ.containsPoint (b : AABBJ) (x y z : JsF) : Prop :=
  JsF.le b.min.x x ∧ JsF.le x b.max.x ∧
  JsF.le b.min.y y ∧ JsF.le y b.max.y ∧
  JsF.le b.min.z z ∧ JsF.le z b.max.z

/-- C10: expanding the default-constructed empty AABB by any finite point p
yields the degenerate box with min = max = p; afterwards isEmpty() is false
and containsPoint(p) is true. -/
theorem empty_aabb_expand_point (px py pz : ℝ) :
    (AABBJ.empty.expandByPoint (.fin px) (.fin py) (.fin pz)).min =
      ⟨.fin px, .fin py, .fin pz⟩
    ∧ (AABBJ.empty.expandByPoint (.fin px) (.fin py) (.fin pz)).max =
      ⟨.fin px, .fin py, .fin pz⟩
    ∧ ¬ (AABBJ.empty.expandByPoint (.fin px) (.fin py) (.fin pz)).isEmpty
    ∧ (AABBJ.empty.expandByPoint (.fin px) (.fin py) (.fin pz)).containsPoint
        (.fin px) (.fin py) (.fin pz) := by
  have hbox : AABBJ.empty.expandByPoint (.fin px) (.fin py) (.fin pz) =
      ⟨⟨.fin px, .fin py, .fin pz⟩, ⟨.fin px, .fin py, .fin pz⟩⟩ := by
    simp [AABBJ.empty, AABBJ.expandByPoint, JsF.lt]
  refine ⟨by rw [hbox], by rw [hbox], ?_, ?_⟩
  · rw [hbox]
    simp [AABBJ.isEmpty, JsF.lt]
  · rw [hbox]
    simp [AABBJ.containsPoint, JsF.le]

/-- The conditional minimum a < b ? a : b used by the slab method. -/
def JsF.minJ (a b : JsF) : JsF := if JsF.lt a b then a else b

/-- The conditional maximum a > b ? a : b used by the slab method; the
JavaScript comparison a > b holds exactly when b < a. -/
def JsF.maxJ (a b : JsF) : JsF := if JsF.lt b a then a else b

/-- The less-or-equal comparison never relates NaN to anything. -/
theorem JsF.le_ne_nan {a b : JsF} (h : JsF.le a b) : a ≠ JsF.nan ∧ b ≠ JsF.nan := by
  cases a <;> cases b <;> simp_all [JsF.le]

/-- Reflexivity of the less-or-equal comparison away from NaN. -/
theorem JsF.le_refl {a : JsF} (h : a ≠ JsF.nan) : JsF.le a a := by
  cases a <;> simp_all [JsF.le]

/-- Strict comparison implies the non-strict one. -/
theorem JsF.le_of_lt {a b : JsF} (h : JsF.lt a b) : JsF.le a b := by
  cases a <;> cases b <;> simp_all [JsF.lt, JsF.le]
  exact h.le

/-- The non-strict comparison excludes the reversed strict one. -/
theorem JsF.not_lt_of_le {a b : JsF} (h : JsF.le a b) : ¬ JsF.lt b a := by
  cases a <;> cases b <;> simp_all [JsF.lt, JsF.le]

/-- Totality away from NaN: a failed strict comparison yields the reversed
non-strict one. -/
theorem JsF.le_of_not_lt {a b : JsF} (ha : a ≠ JsF.nan) (hb : b ≠ JsF.nan)
    (h : ¬ JsF.lt a b) : JsF.le b a := by
  cases a <;> cases b <;> simp_all [JsF.lt, JsF.le]

/-- Transitivity of the non-strict comparison. -/
theorem JsF.le_trans {a b c : JsF} (h1 : JsF.le a b) (h2 : JsF.le b c) :
    JsF.le a c := by
  cases a <;> cases b <;> cases c <;> simp_all [JsF.le]
  linarith

/-- The conditional minimum of non-NaN values is not NaN. -/
theorem JsF.minJ_ne_nan {a b : JsF} (ha : a ≠ JsF.nan) (hb : b ≠ JsF.nan) :
    JsF.minJ a b ≠ JsF.nan := by
  unfold JsF.minJ
  split
  · assumption
  · assumption

/-- The conditional maximum of non-NaN values is not NaN. -/
theorem JsF.maxJ_ne_nan {a b : JsF} (ha : a ≠ JsF.nan) (hb : b ≠ JsF.nan) :
    JsF.maxJ a b ≠ JsF.nan := by
  unfold JsF.maxJ
  split
  · assumption
  · assumption

/-- The conditional minimum is below its left argument (away from NaN). -/
theorem JsF.minJ_le_left {a b : JsF} (ha : a ≠ JsF.nan) (hb : b ≠ JsF.nan) :
    JsF.le (JsF.minJ a b) a := by
  unfold JsF.minJ
  by_cases h : JsF.lt a b
  · rw [if_pos h]; exact JsF.le_refl ha
  · rw [if_neg h]; exact JsF.le_of_not_lt ha hb h

/-- The conditional minimum is below its right argument (away from NaN). -/
theorem JsF.minJ_le_right {a b : JsF} (hb : b ≠ JsF.nan) :
    JsF.le (JsF.minJ a b) b := by
  unfold JsF.minJ
  by_cases h : JsF.lt a b
  · rw [if_pos h]; exact JsF.le_of_lt h
  · rw [if_neg h]; exact JsF.le_refl hb

/-- The conditional maximum is above its left argument (away from NaN). -/
theorem JsF.le_maxJ_left {a b : JsF} (ha : a ≠ JsF.nan) (hb : b ≠ JsF.nan) :
    JsF.le a (JsF.maxJ a b) := by
  unfold JsF.maxJ
  by_cases h : JsF.lt b a
  · rw [if_pos h]; exact JsF.le_refl ha
  · rw [if_neg h]; exact JsF.le_of_not_lt hb ha h

/-- The conditional maximum is above its right argument (away from NaN). -/
theorem JsF.le_maxJ_right {a b : JsF} (hb : b ≠ JsF.nan) :
    JsF.le b (JsF.maxJ a b) := by
  unfold JsF.maxJ
  by_cases h : JsF.lt b a
  · rw [if_pos h]; exact JsF.le_of_lt h
  · rw [if_neg h]; exact JsF.le_refl hb

/-- An upper bound of both arguments bounds the conditional maximum. -/
theorem JsF.maxJ_le {a b c : JsF} (h1 : JsF.le a c) (h2 : JsF.le b c) :
    JsF.le (JsF.maxJ a b) c := by
  unfold JsF.maxJ
  split
  · assumption
  · assumption

/-- A lower bound of both arguments bounds the conditional minimum. -/
theorem JsF.le_minJ {a b c : JsF} (h1 : JsF.le c a) (h2 : JsF.le c b) :
    JsF.le c (JsF.minJ a b) := by
  unfold JsF.minJ
  split
  · assumption
  · assumption

/-- A ray with real-valued (finite) origin and direction, modelling the
class Ray.  Constructors normalize the stored direction; intersectAABB
itself reads whatever is stored. -/
structure RayR where
  origin : Vec3R
  direction : Vec3R

/-- An axis-aligned box with real-valued (finite) corners. -/
structure AABBR where
  min : Vec3R
  max : Vec3R

/-- AABB.prototype.containsPoint restricted to finite values:
closed-interval comparisons on every axis. -/
def AABBR.containsPoint (b : AABBR) (p : Vec3R) : Prop :=
  b.min.x ≤ p.x ∧ p.x ≤ b.max.x ∧
  b.min.y ≤ p.y ∧ p.y ≤ b.max.y ∧
  b.min.z ≤ p.z ∧ p.z ≤ b.max.z

/-- Ray.prototype.intersectAABB (Ray.ts lines 148-183): the slab method.
Reciprocal direction components map a zero component to Infinity by an
explicit check; the six slab values are combined with the conditional
minima and maxima of the source, and the final branches return -1 on a
miss and tmin or tmax otherwise.  The JavaScript comparison x > y is
modelled as y < x and x >= y as y <= x, both false on NaN. -/
def RayR.intersectAABB (r : RayR) (bb : AABBR) : JsF :=
  let invDx := if r.direction.x = 0 then JsF.inf else JsF.fin (1 / r.direction.x)
  let invDy := if r.direction.y = 0 then JsF.inf else JsF.fin (1 / r.direction.y)
  let invDz := if r.direction.z = 0 then JsF.inf else JsF.fin (1 / r.direction.z)
  let t1 := (JsF.fin (bb.min.x - r.origin.x)).mul invDx
  let t2 := (JsF.fin (bb.max.x - r.origin.x)).mul invDx
  let t3 := (JsF.fin (bb.min.y - r.origin.y)).mul invDy
  let t4 := (JsF.fin (bb.max.y - r.origin.y)).mul invDy
  let t5 := (JsF.fin (bb.min.z - r.origin.z)).mul invDz
  let t6 := (JsF.fin (bb.max.z - r.origin.z)).mul invDz
  let tmin1 := JsF.minJ t1 t2
  let tmax1 := JsF.maxJ t1 t2
  let tmin2 := JsF.minJ t3 t4
  let tmax2 := JsF.maxJ t3 t4
  let tmin3 := JsF.minJ t5 t6
  let tmax3 := JsF.maxJ t5 t6
  let tmin := JsF.maxJ tmin3 (JsF.maxJ tmin2 tmin1)
  let tmax := JsF.minJ tmax3 (JsF.minJ tmax2 tmax1)
  if JsF.lt tmax (.fin 0) ∨ JsF.lt tmax tmin then .fin (-1)
  else if JsF.le (.fin 0) tmin then tmin else tmax

/-- The slab parameter tmin of intersectAABB: the largest per-axis entry
value, each per-axis entry being the smaller of the two slab values of
that axis. -/
def slabTmin (r : RayR) (bb : AABBR) : JsF :=
  let invDx := if r.direction.x = 0 then JsF.inf else JsF.fin (1 / r.direction.x)
  let invDy := if r.direction.y = 0 then JsF.inf else JsF.fin (1 / r.direction.y)
  let invDz := if r.direction.z = 0 then JsF.inf else JsF.fin (1 / r.direction.z)
  let t1 := (JsF.fin (bb.min.x - r.origin.x)).mul invDx
  let t2 := (JsF.fin (bb.max.x - r.origin.x)).mul invDx
  let t3 := (JsF.fin (bb.min.y - r.origin.y)).mul invDy
  let t4 := (JsF.fin (bb.max.y - r.origin.y)).mul invDy
  let t5 := (JsF.fin (bb.min.z - r.origin.z)).mul invDz
  let t6 := (JsF.fin (bb.max.z - r.origin.z)).mul invDz
  JsF.maxJ (JsF.minJ t5 t6) (JsF.maxJ (JsF.minJ t3 t4) (JsF.minJ t1 t2))

/-- The slab parameter tmax of intersectAABB: the smallest per-axis exit
value, each per-axis exit being the larger of the two slab values of that
axis. -/
def slabTmax (r : RayR) (bb : AABBR) : JsF :=
  let invDx := if r.direction.x = 0 then JsF.inf else JsF.fin (1 / r.direction.x)
  let invDy := if r.direction.y = 0 then JsF.inf else JsF.fin (1 / r.direction.y)
  let invDz := if r.direction.z = 0 then JsF.inf else JsF.fin (1 / r.direction.z)
  let t1 := (JsF.fin (bb.min.x - r.origin.x)).mul invDx
  let t2 := (JsF.fin (bb.max.x - r.origin.x)).mul invDx
  let t3 := (JsF.fin (bb.min.y - r.origin.y)).mul invDy
  let t4 := (JsF.fin (bb.max.y - r.origin.y)).mul invDy
  let t5 := (JsF.fin (bb.min.z - r.origin.z)).mul invDz
  let t6 := (JsF.fin (bb.max.z - r.origin.z)).mul invDz
  JsF.minJ (JsF.maxJ t5 t6) (JsF.minJ (JsF.maxJ t3 t4) (JsF.maxJ t1 t2))

/-- intersectAABB is exactly the final branch structure applied to the
slab parameters. -/
theorem RayR.intersectAABB_eq (r : RayR) (bb : AABBR) :
    r.intersectAABB bb =
      if JsF.lt (slabTmax r bb) (.fin 0) ∨ JsF.lt (slabTmax r bb) (slabTmin r bb)
      then .fin (-1)
      else if JsF.le (.fin 0) (slabTmin r bb) then slabTmin r bb else slabTmax r bb :=
  rfl

/-- An axis is NaN-safe for the slab method when its direction component is
nonzero or its origin component lies on neither slab plane of that axis. -/
def axisOK (o d bmin bmax : ℝ) : Prop := d ≠ 0 ∨ (o ≠ bmin ∧ o ≠ bmax)

/-- On a NaN-safe axis neither slab value is NaN. -/
theorem axis_ne_nan (bmin bmax o d : ℝ) (hOK : axisOK o d bmin bmax) :
    (JsF.fin (bmin - o)).mul (if d = 0 then JsF.inf else JsF.fin (1 / d)) ≠ JsF.nan
    ∧ (JsF.fin (bmax - o)).mul (if d = 0 then JsF.inf else JsF.fin (1 / d)) ≠ JsF.nan := by
  rcases hOK with hd | ⟨h1, h2⟩
  · rw [if_neg hd]
    exact ⟨by simp [JsF.mul], by simp [JsF.mul]⟩
  · by_cases hd : d = 0
    · rw [if_pos hd]
      constructor
      · simp only [JsF.mul, JsF.sgnInf]
        rcases lt_trichotomy (bmin - o) 0 with h | h | h
        · rw [if_neg (by linarith), if_pos h]; simp
        · exact absurd (by linarith : o = bmin) h1
        · rw [if_pos h]; simp
      · simp only [JsF.mul, JsF.sgnInf]
        rcases lt_trichotomy (bmax - o) 0 with h | h | h
        · rw [if_neg (by linarith), if_pos h]; simp
        · exact absurd (by linarith : o = bmax) h2
        · rw [if_pos h]; simp
    · rw [if_neg hd]
      exact ⟨by simp [JsF.mul], by simp [JsF.mul]⟩

/-- On a NaN-safe axis whose origin component lies inside the closed slab,
the per-axis entry value is at most 0 and the per-axis exit value is at
least 0. -/
theorem axis_bounds (bmin bmax o d : ℝ) (hOK : axisOK o d bmin bmax)
    (h1 : bmin ≤ o) (h2 : o ≤ bmax) :
    JsF.le (JsF.minJ
        ((JsF.fin (bmin - o)).mul (if d = 0 then JsF.inf else JsF.fin (1 / d)))
        ((JsF.fin (bmax - o)).mul (if d = 0 then JsF.inf else JsF.fin (1 / d)))) (.fin 0)
    ∧ JsF.le (.fin 0) (JsF.maxJ
        ((JsF.fin (bmin - o)).mul (if d = 0 then JsF.inf else JsF.fin (1 / d)))
        ((JsF.fin (bmax - o)).mul (if d = 0 then JsF.inf else JsF.fin (1 / d)))) := by
  by_cases hd : d = 0
  · have hne : o ≠ bmin ∧ o ≠ bmax := by
      rcases hOK with h | h
      · exact absurd hd h
      · exact h
    have hmin : bmin - o < 0 := sub_neg.mpr (lt_of_le_of_ne h1 (Ne.symm hne.1))
    have hmax : 0 < bmax - o := sub_pos.mpr (lt_of_le_of_ne h2 hne.2)
    rw [if_pos hd]
    have eA : (JsF.fin (bmin - o)).mul JsF.inf = JsF.ninf := by
      simp only [JsF.mul, JsF.sgnInf]
      rw [if_neg (by linarith), if_pos hmin]
    have eB : (JsF.fin (bmax - o)).mul JsF.inf = JsF.inf := by
      simp only [JsF.mul, JsF.sgnInf]
      rw [if_pos hmax]
    rw [eA, eB]
    constructor
    · exact JsF.le_trans (JsF.minJ_le_left (by simp) (by simp)) (by simp [JsF.le])
    · exact JsF.le_trans (by simp [JsF.le]) (JsF.le_maxJ_right (by simp))
  · rw [if_neg hd]
    have eA : (JsF.fin (bmin - o)).mul (JsF.fin (1 / d)) = JsF.fin ((bmin - o) * (1 / d)) := by
      simp [JsF.mul]
    have eB : (JsF.fin (bmax - o)).mul (JsF.fin (1 / d)) = JsF.fin ((bmax - o) * (1 / d)) := by
      simp [JsF.mul]
    rw [eA, eB]
    rcases lt_trichotomy d 0 with hdn | h0 | hdp
    · have hinv : 1 / d < 0 := one_div_neg.mpr hdn
      have hb : (bmax - o) * (1 / d) ≤ 0 := by nlinarith
      have ha : 0 ≤ (bmin - o) * (1 / d) := by nlinarith
      constructor
      · exact JsF.le_trans (JsF.minJ_le_right (by simp)) (by simpa [JsF.le] using hb)
      · exact JsF.le_trans (by simpa [JsF.le] using ha) (JsF.le_maxJ_left (by simp) (by simp))
    · exact absurd h0 hd
    · have hinv : 0 < 1 / d := one_div_pos.mpr hdp
      have ha : (bmin - o) * (1 / d) ≤ 0 := by nlinarith
      have hb : 0 ≤ (bmax - o) * (1 / d) := by nlinarith
      constructor
      · exact JsF.le_trans (JsF.minJ_le_left (by simp) (by simp)) (by simpa [JsF.le] using ha)
      · exact JsF.le_trans (by simpa [JsF.le] using hb) (JsF.le_maxJ_right (by simp))

/-- The final branch of the slab method returns a value that compares at
least 0 under the JavaScript order, or exactly -1, whenever the slab
parameters are not NaN. -/
theorem branch_sign (tmin tmax : JsF) (_hmin : tmin ≠ .nan) (hmax : tmax ≠ .nan) :
    JsF.le (.fin 0) (if JsF.lt tmax (.fin 0) ∨ JsF.lt tmax tmin then JsF.fin (-1)
      else if JsF.le (.fin 0) tmin then tmin else tmax)
    ∨ (if JsF.lt tmax (.fin 0) ∨ JsF.lt tmax tmin then JsF.fin (-1)
      else if JsF.le (.fin 0) tmin then tmin else tmax) = JsF.fin (-1) := by
  by_cases hg : JsF.lt tmax (.fin 0) ∨ JsF.lt tmax tmin
  · right
    rw [if_pos hg]
  · left
    rw [if_neg hg]
    push_neg at hg
    by_cases h2 : JsF.le (.fin 0) tmin
    · rw [if_pos h2]; exact h2
    · rw [if_neg h2]
      exact JsF.le_of_not_lt hmax (by simp) hg.1

/-- When the slab parameters bracket 0, the final branch of the slab method
returns a value at least 0. -/
theorem branch_inside (tmin tmax : JsF) (hmin : JsF.le tmin (.fin 0))
    (hmax : JsF.le (.fin 0) tmax) :
    JsF.le (.fin 0) (if JsF.lt tmax (.fin 0) ∨ JsF.lt tmax tmin then JsF.fin (-1)
      else if JsF.le (.fin 0) tmin then tmin else tmax) := by
  have hg : ¬ (JsF.lt tmax (.fin 0) ∨ JsF.lt tmax tmin) := by
    push_neg
    exact ⟨JsF.not_lt_of_le hmax, JsF.not_lt_of_le (JsF.le_trans hmin hmax)⟩
  rw [if_neg hg]
  by_cases h2 : JsF.le (.fin 0) tmin
  · rw [if_pos h2]; exact h2
  · rw [if_neg h2]; exact hmax

/-- C5 counterexample: for the ray with origin (1, 0, 0) and unit direction
(0, 0, 1) against the box with corners (-1, -1, -1) and (1, 1, 1), the x
direction component is zero and the origin lies exactly on the slab plane
x = 1, so the slab value (1 - 1) * Infinity is NaN; intersectAABB returns
NaN, which is neither at least 0 nor exactly -1, although the origin is
contained in the box. -/
theorem intersectAABB_nan_on_boundary :
    RayR.intersectAABB ⟨⟨1, 0, 0⟩, ⟨0, 0, 1⟩⟩ ⟨⟨-1, -1, -1⟩, ⟨1, 1, 1⟩⟩ = JsF.nan
    ∧ AABBR.containsPoint ⟨⟨-1, -1, -1⟩, ⟨1, 1, 1⟩⟩ ⟨1, 0, 0⟩
    ∧ ¬ JsF.le (JsF.fin 0) JsF.nan
    ∧ JsF.nan ≠ JsF.fin (-1) := by
  refine ⟨?_, ?_, by simp [JsF.le], by simp⟩
  · norm_num [RayR.intersectAABB, JsF.minJ, JsF.maxJ, JsF.mul, JsF.sgnInf,
      JsF.lt, JsF.le]
  · norm_num [AABBR.containsPoint]

/-- C5 (amended): whenever every axis is NaN-safe (direction component
nonzero, or origin component on neither slab plane of that axis),
intersectAABB returns exactly the stated branch structure over the slab
parameters tmin (largest per-axis entry) and tmax (smallest per-axis
exit): -1 when tmax < 0 or tmin > tmax, otherwise tmin if tmin >= 0 else
tmax; the result then compares at least 0 or equals exactly -1, and a ray
whose origin is inside the box (closed intervals) returns a hit value at
least 0, never -1.  (On a NaN-unsafe axis the result can be NaN, as the
counterexample shows.) -/
theorem intersectAABB_slab_spec (r : RayR) (bb : AABBR)
    (hx : axisOK r.origin.x r.direction.x bb.min.x bb.max.x)
    (hy : axisOK r.origin.y r.direction.y bb.min.y bb.max.y)
    (hz : axisOK r.origin.z r.direction.z bb.min.z bb.max.z) :
    (r.intersectAABB bb =
      if JsF.lt (slabTmax r bb) (.fin 0) ∨ JsF.lt (slabTmax r bb) (slabTmin r bb)
      then .fin (-1)
      else if JsF.le (.fin 0) (slabTmin r bb) then slabTmin r bb else slabTmax r bb)
    ∧ (JsF.le (.fin 0) (r.intersectAABB bb) ∨ r.intersectAABB bb = .fin (-1))
    ∧ (bb.containsPoint r.origin → JsF.le (.fin 0) (r.intersectAABB bb)) := by
  obtain ⟨h1x, h2x⟩ := axis_ne_nan bb.min.x bb.max.x r.origin.x r.direction.x hx
  obtain ⟨h1y, h2y⟩ := axis_ne_nan bb.min.y bb.max.y r.origin.y r.direction.y hy
  obtain ⟨h1z, h2z⟩ := axis_ne_nan bb.min.z bb.max.z r.origin.z r.direction.z hz
  have hminN : slabTmin r bb ≠ .nan :=
    JsF.maxJ_ne_nan (JsF.minJ_ne_nan h1z h2z)
      (JsF.maxJ_ne_nan (JsF.minJ_ne_nan h1y h2y) (JsF.minJ_ne_nan h1x h2x))
  have hmaxN : slabTmax r bb ≠ .nan :=
    JsF.minJ_ne_nan (JsF.maxJ_ne_nan h1z h2z)
      (JsF.minJ_ne_nan (JsF.maxJ_ne_nan h1y h2y) (JsF.maxJ_ne_nan h1x h2x))
  refine ⟨rfl, ?_, ?_⟩
  · rw [RayR.intersectAABB_eq r bb]
    exact branch_sign (slabTmin r bb) (slabTmax r bb) hminN hmaxN
  · intro hc
    obtain ⟨c1, c2, c3, c4, c5, c6⟩ := hc
    obtain ⟨bx1, bx2⟩ := axis_bounds bb.min.x bb.max.x r.origin.x r.direction.x hx c1 c2
    obtain ⟨hy1, hy2⟩ := axis_bounds bb.min.y bb.max.y r.origin.y r.direction.y hy c3 c4
    obtain ⟨hz1, hz2⟩ := axis_bounds bb.min.z bb.max.z r.origin.z r.direction.z hz c5 c6
    have hminLe : JsF.le (slabTmin r bb) (.fin 0) :=
      JsF.maxJ_le hz1 (JsF.maxJ_le hy1 bx1)
    have hmaxGe : JsF.le (.fin 0) (slabTmax r bb) :=
      JsF.le_minJ hz2 (JsF.le_minJ hy2 bx2)
    rw [RayR.intersectAABB_eq r bb]
    exact branch_inside _ _ hminLe hmaxGe

/-- C5 witness: the ray from (-5, 0, 0) along (1, 0, 0) against the box
from (-1, -1, -1) to (1, 1, 1) has all axes NaN-safe, so the result
compares at least 0 or is exactly -1. -/
theorem intersectAABB_slab_spec_witness :
    JsF.le (.fin 0)
        (RayR.intersectAABB ⟨⟨-5, 0, 0⟩, ⟨1, 0, 0⟩⟩ ⟨⟨-1, -1, -1⟩, ⟨1, 1, 1⟩⟩)
    ∨ RayR.intersectAABB ⟨⟨-5, 0, 0⟩, ⟨1, 0, 0⟩⟩ ⟨⟨-1, -1, -1⟩, ⟨1, 1, 1⟩⟩ =
        JsF.fin (-1) :=
  (intersectAABB_slab_spec ⟨⟨-5, 0, 0⟩, ⟨1, 0, 0⟩⟩ ⟨⟨-1, -1, -1⟩, ⟨1, 1, 1⟩⟩
    (Or.inl (by norm_num)) (Or.inr (by norm_num)) (Or.inr (by norm_num))).2.1

/-- A quaternion of real numbers, modelling the class Quat. -/
@[ext]
structure QuatR where
  x : ℝ
  y : ℝ
  z : ℝ
  w : ℝ

/-- Quat.prototype.lengthSq. -/
def QuatR.lengthSq (q : QuatR) : ℝ :=
  q.x * q.x + q.y * q.y + q.z * q.z + q.w * q.w

/-- Quat.prototype.length: Math.sqrt(x*x + y*y + z*z + w*w). -/
def QuatR.length (q : QuatR) : ℝ :=
  Real.sqrt (q.x * q.x + q.y * q.y + q.z * q.z + q.w * q.w)

/-- Quat.prototype.normalize (Quat.ts lines 140-150): divide by the length
when it exceeds EPSILON, otherwise leave the quaternion unchanged. -/
def QuatR.normalize (q : QuatR) : QuatR :=
  let len := Real.sqrt (q.x * q.x + q.y * q.y + q.z * q.z + q.w * q.w)
  if len > EPSILON then
    let invLen := 1 / len
    ⟨q.x * invLen, q.y * invLen, q.z * invLen, q.w * invLen⟩
  else
    q

/-- The two-argument arctangent Math.atan2(y, x) on reals. -/
def atan2R (y x : ℝ) : ℝ :=
  if 0 < x then Real.arctan (y / x)
  else if x < 0 then
    (if 0 ≤ y then Real.arctan (y / x) + Real.pi else Real.arctan (y / x) - Real.pi)
  else
    (if 0 < y then Real.pi / 2 else if y < 0 then -(Real.pi / 2) else 0)

/-- The trigonometric primitives used by slerp, abstracted so that the
endpoint-clamping branches can be shown not to depend on them. -/
structure TrigOps where
  sinF : ℝ → ℝ
  atan2F : ℝ → ℝ → ℝ

/-- The actual trigonometric primitives Math.sin and Math.atan2. -/
def realTrig : TrigOps := ⟨Real.sin, atan2R⟩

/-- Quat.prototype.slerp (Quat.ts lines 245-285) with the trigonometric
primitives passed as a parameter: clamp to the endpoints at t <= 0 and
t >= 1, flip the target when the dot product is negative, return the
receiver when cosHalfTheta >= 1, fall back to normalized linear
interpolation when sqrSinHalfTheta < 0.001, and otherwise use the
sine-ratio formula. -/
def QuatR.slerpWith (ops : TrigOps) (a b : QuatR) (t : ℝ) : QuatR :=
  if t ≤ 0 then a
  else if 1 ≤ t then b
  else
    let c0 := a.x * b.x + a.y * b.y + a.z * b.z + a.w * b.w
    let bx1 := if c0 < 0 then -b.x else b.x
    let by1 := if c0 < 0 then -b.y else b.y
    let bz1 := if c0 < 0 then -b.z else b.z
    let bw1 := if c0 < 0 then -b.w else b.w
    let cosHalfTheta := if c0 < 0 then -c0 else c0
    if 1 ≤ cosHalfTheta then a
    else
      let sqrSinHalfTheta := 1 - cosHalfTheta * cosHalfTheta
      if sqrSinHalfTheta < 0.001 then
        QuatR.normalize ⟨a.x + t * (bx1 - a.x), a.y + t * (by1 - a.y),
          a.z + t * (bz1 - a.z), a.w + t * (bw1 - a.w)⟩
      else
        let sinHalfTheta := Real.sqrt sqrSinHalfTheta
        let halfTheta := ops.atan2F sinHalfTheta cosHalfTheta
        let ratioA := ops.sinF ((1 - t) * halfTheta) / sinHalfTheta
        let ratioB := ops.sinF (t * halfTheta) / sinHalfTheta
        ⟨a.x * ratioA + bx1 * ratioB, a.y * ratioA + by1 * ratioB,
         a.z * ratioA + bz1 * ratioB, a.w * ratioA + bw1 * ratioB⟩

/-- Quat.prototype.slerp with the actual trigonometric primitives. -/
def QuatR.slerp (a b : QuatR) (t : ℝ) : QuatR :=
  QuatR.slerpWith realTrig a b t

/-- A quaternion of unit squared length has length 1. -/
theorem QuatR.length_eq_one (q : QuatR) (h : q.lengthSq = 1) : q.length = 1 := by
  unfold QuatR.length
  unfold QuatR.lengthSq at h
  rw [h, Real.sqrt_one]

/-- A quaternion whose length exceeds the epsilon guard normalizes to an
exactly unit-length quaternion. -/
theorem QuatR.length_normalize_of_big (q : QuatR)
    (h : EPSILON < Real.sqrt (q.x * q.x + q.y * q.y + q.z * q.z + q.w * q.w)) :
    QuatR.length (QuatR.normalize q) = 1 := by
  have hl0 : 0 < Real.sqrt (q.x * q.x + q.y * q.y + q.z * q.z + q.w * q.w) :=
    lt_trans (by norm_num [EPSILON]) h
  have hsq : Real.sqrt (q.x * q.x + q.y * q.y + q.z * q.z + q.w * q.w) *
      Real.sqrt (q.x * q.x + q.y * q.y + q.z * q.z + q.w * q.w) =
      q.x * q.x + q.y * q.y + q.z * q.z + q.w * q.w :=
    Real.mul_self_sqrt (add_nonneg (add_nonneg (add_nonneg (mul_self_nonneg _)
      (mul_self_nonneg _)) (mul_self_nonneg _)) (mul_self_nonneg _))
  have hne : Real.sqrt (q.x * q.x + q.y * q.y + q.z * q.z + q.w * q.w) ≠ 0 :=
    ne_of_gt hl0
  unfold QuatR.normalize
  rw [if_pos h]
  apply QuatR.length_eq_one
  unfold QuatR.lengthSq
  field_simp
  linarith [hsq]

/-- The sine combination identity used to show that slerp preserves unit
length: sin(A)^2 + 2 sin(A) sin(B) cos(A+B) + sin(B)^2 = sin(A+B)^2. -/
theorem sin_comb (A B : ℝ) :
    Real.sin A ^ 2 + 2 * Real.sin A * Real.sin B * Real.cos (A + B) +
      Real.sin B ^ 2 = Real.sin (A + B) ^ 2 := by
  rw [Real.sin_add, Real.cos_add]
  nlinarith [Real.sin_sq_add_cos_sq A, Real.sin_sq_add_cos_sq B]

/-- On the first quadrant of the unit circle, atan2 recovers the angle:
its sine is the given sine value and its cosine the given cosine value. -/
theorem atan2R_sin_cos (s c : ℝ) (hs : 0 < s) (hc : 0 ≤ c)
    (hsc : s ^ 2 + c ^ 2 = 1) :
    Real.sin (atan2R s c) = s ∧ Real.cos (atan2R s c) = c := by
  rcases eq_or_lt_of_le hc with hc0 | hcpos
  · have hs1 : s = 1 := by nlinarith
    have : atan2R s c = Real.pi / 2 := by
      unfold atan2R
      rw [if_neg (by rw [← hc0]; exact lt_irrefl 0), if_neg (by rw [← hc0]; exact lt_irrefl 0),
        if_pos hs]
    rw [this, Real.sin_pi_div_two, Real.cos_pi_div_two, hs1, ← hc0]
    exact ⟨rfl, rfl⟩
  · have hcne : c ≠ 0 := ne_of_gt hcpos
    have h1 : Real.sqrt (1 + (s / c) ^ 2) = 1 / c := by
      rw [show 1 + (s / c) ^ 2 = (1 / c) ^ 2 by field_simp; linarith]
      exact Real.sqrt_sq (by positivity)
    have hth : atan2R s c = Real.arctan (s / c) := by
      unfold atan2R
      rw [if_pos hcpos]
    constructor
    · rw [hth, Real.sin_arctan, h1]
      field_simp
    · rw [hth, Real.cos_arctan, h1]
      field_simp

/-- The body of slerp after the endpoint clamps, for a target already
flipped to nonnegative dot product: every branch produces a unit-length
quaternion when both inputs are unit. -/
theorem slerp_tail_length (a : QuatR) (bx1 by1 bz1 bw1 t c : ℝ)
    (ha : a.x * a.x + a.y * a.y + a.z * a.z + a.w * a.w = 1)
    (hb : bx1 * bx1 + by1 * by1 + bz1 * bz1 + bw1 * bw1 = 1)
    (hc : c = a.x * bx1 + a.y * by1 + a.z * bz1 + a.w * bw1)
    (hcpos : 0 ≤ c) (ht0 : 0 < t) (ht1 : t < 1) :
    QuatR.length (
      if 1 ≤ c then a
      else if 1 - c * c < 0.001 then
        QuatR.normalize ⟨a.x + t * (bx1 - a.x), a.y + t * (by1 - a.y),
          a.z + t * (bz1 - a.z), a.w + t * (bw1 - a.w)⟩
      else
        ⟨a.x * (Real.sin ((1 - t) * atan2R (Real.sqrt (1 - c * c)) c) / Real.sqrt (1 - c * c))
           + bx1 * (Real.sin (t * atan2R (Real.sqrt (1 - c * c)) c) / Real.sqrt (1 - c * c)),
         a.y * (Real.sin ((1 - t) * atan2R (Real.sqrt (1 - c * c)) c) / Real.sqrt (1 - c * c))
           + by1 * (Real.sin (t * atan2R (Real.sqrt (1 - c * c)) c) / Real.sqrt (1 - c * c)),
         a.z * (Real.sin ((1 - t) * atan2R (Real.sqrt (1 - c * c)) c) / Real.sqrt (1 - c * c))
           + bz1 * (Real.sin (t * atan2R (Real.sqrt (1 - c * c)) c) / Real.sqrt (1 - c * c)),
         a.w * (Real.sin ((1 - t) * atan2R (Real.sqrt (1 - c * c)) c) / Real.sqrt (1 - c * c))
           + bw1 * (Real.sin (t * atan2R (Real.sqrt (1 - c * c)) c) / Real.sqrt (1 - c * c))⟩)
      = 1 := by
  by_cases hbig : 1 ≤ c
  · rw [if_pos hbig]
    exact QuatR.length_eq_one a (by unfold QuatR.lengthSq; linarith)
  rw [if_neg hbig]
  push_neg at hbig
  by_cases hsmall : 1 - c * c < 0.001
  · rw [if_pos hsmall]
    apply QuatR.length_normalize_of_big
    have hS : (a.x + t * (bx1 - a.x)) * (a.x + t * (bx1 - a.x)) +
        (a.y + t * (by1 - a.y)) * (a.y + t * (by1 - a.y)) +
        (a.z + t * (bz1 - a.z)) * (a.z + t * (bz1 - a.z)) +
        (a.w + t * (bw1 - a.w)) * (a.w + t * (bw1 - a.w)) =
        (1 - t) ^ 2 * (a.x * a.x + a.y * a.y + a.z * a.z + a.w * a.w) +
        2 * t * (1 - t) * (a.x * bx1 + a.y * by1 + a.z * bz1 + a.w * bw1) +
        t ^ 2 * (bx1 * bx1 + by1 * by1 + bz1 * bz1 + bw1 * bw1) := by ring
    rw [hS, ha, hb, ← hc]
    have hpos : 0 ≤ 2 * t * (1 - t) * c := by
      have := mul_nonneg (mul_nonneg (by linarith : (0:ℝ) ≤ 2 * t) (by linarith : (0:ℝ) ≤ 1 - t)) hcpos
      linarith [this]
    have hhalf : (1 : ℝ) / 2 ≤ (1 - t) ^ 2 * 1 + 2 * t * (1 - t) * c + t ^ 2 * 1 := by
      nlinarith [sq_nonneg (1 - 2 * t)]
    have hnn : (0 : ℝ) ≤ (1 - t) ^ 2 * 1 + 2 * t * (1 - t) * c + t ^ 2 * 1 := by linarith
    rw [show EPSILON = (1e-6 : ℝ) from rfl]
    rw [show (1e-6 : ℝ) = Real.sqrt ((1e-6) ^ 2) by rw [Real.sqrt_sq]; norm_num]
    apply Real.sqrt_lt_sqrt (by norm_num)
    nlinarith
  · rw [if_neg hsmall]
    push_neg at hsmall
    have hs2pos : 0 < 1 - c * c := by nlinarith
    have hspos : 0 < Real.sqrt (1 - c * c) := Real.sqrt_pos.mpr hs2pos
    have hssq : Real.sqrt (1 - c * c) ^ 2 = 1 - c * c := Real.sq_sqrt hs2pos.le
    obtain ⟨hsin, hcos⟩ := atan2R_sin_cos (Real.sqrt (1 - c * c)) c hspos hcpos
      (by rw [hssq]; ring)
    have hsne : Real.sqrt (1 - c * c) ≠ 0 := ne_of_gt hspos
    have hAB : (1 - t) * atan2R (Real.sqrt (1 - c * c)) c +
        t * atan2R (Real.sqrt (1 - c * c)) c = atan2R (Real.sqrt (1 - c * c)) c := by ring
    have key := sin_comb ((1 - t) * atan2R (Real.sqrt (1 - c * c)) c)
      (t * atan2R (Real.sqrt (1 - c * c)) c)
    rw [hAB, hcos, hsin] at key
    apply QuatR.length_eq_one
    unfold QuatR.lengthSq
    have final : (a.x * (Real.sin ((1 - t) * atan2R (Real.sqrt (1 - c * c)) c) / Real.sqrt (1 - c * c))
           + bx1 * (Real.sin (t * atan2R (Real.sqrt (1 - c * c)) c) / Real.sqrt (1 - c * c))) *
        (a.x * (Real.sin ((1 - t) * atan2R (Real.sqrt (1 - c * c)) c) / Real.sqrt (1 - c * c))
           + bx1 * (Real.sin (t * atan2R (Real.sqrt (1 - c * c)) c) / Real.sqrt (1 - c * c))) +
        (a.y * (Real.sin ((1 - t) * atan2R (Real.sqrt (1 - c * c)) c) / Real.sqrt (1 - c * c))
           + by1 * (Real.sin (t * atan2R (Real.sqrt (1 - c * c)) c) / Real.sqrt (1 - c * c))) *
        (a.y * (Real.sin ((1 - t) * atan2R (Real.sqrt (1 - c * c)) c) / Real.sqrt (1 - c * c))
           + by1 * (Real.sin (t * atan2R (Real.sqrt (1 - c * c)) c) / Real.sqrt (1 - c * c))) +
        (a.z * (Real.sin ((1 - t) * atan2R (Real.sqrt (1 - c * c)) c) / Real.sqrt (1 - c * c))
           + bz1 * (Real.sin (t * atan2R (Real.sqrt (1 - c * c)) c) / Real.sqrt (1 - c * c))) *
        (a.z * (Real.sin ((1 - t) * atan2R (Real.sqrt (1 - c * c)) c) / Real.sqrt (1 - c * c))
           + bz1 * (Real.sin (t * atan2R (Real.sqrt (1 - c * c)) c) / Real.sqrt (1 - c * c))) +
        (a.w * (Real.sin ((1 - t) * atan2R (Real.sqrt (1 - c * c)) c) / Real.sqrt (1 - c * c))
           + bw1 * (Real.sin (t * atan2R (Real.sqrt (1 - c * c)) c) / Real.sqrt (1 - c * c))) *
        (a.w * (Real.sin ((1 - t) * atan2R (Real.sqrt (1 - c * c)) c) / Real.sqrt (1 - c * c))
           + bw1 * (Real.sin (t * atan2R (Real.sqrt (1 - c * c)) c) / Real.sqrt (1 - c * c))) =
        (Real.sin ((1 - t) * atan2R (Real.sqrt (1 - c * c)) c) ^ 2 *
            (a.x * a.x + a.y * a.y + a.z * a.z + a.w * a.w) +
          2 * Real.sin ((1 - t) * atan2R (Real.sqrt (1 - c * c)) c) *
            Real.sin (t * atan2R (Real.sqrt (1 - c * c)) c) *
            (a.x * bx1 + a.y * by1 + a.z * bz1 + a.w * bw1) +
          Real.sin (t * atan2R (Real.sqrt (1 - c * c)) c) ^ 2 *
            (bx1 * bx1 + by1 * by1 + bz1 * bz1 + bw1 * bw1)) / Real.sqrt (1 - c * c) ^ 2 := by
      field_simp
      ring
    rw [final, ha, hb, ← hc, mul_one, mul_one, key]
    exact div_self (pow_ne_zero 2 hsne)

/-- Slerp of unit quaternions is unit-length for every interpolation
parameter. -/
theorem QuatR.length_slerp (a b : QuatR) (t : ℝ)
    (ha : a.lengthSq = 1) (hb : b.lengthSq = 1) :
    (QuatR.slerp a b t).length = 1 := by
  unfold QuatR.lengthSq at ha hb
  unfold QuatR.slerp QuatR.slerpWith realTrig
  by_cases h1 : t ≤ 0
  · rw [if_pos h1]
    exact QuatR.length_eq_one a (by unfold QuatR.lengthSq; linarith)
  rw [if_neg h1]
  by_cases h2 : 1 ≤ t
  · rw [if_pos h2]
    exact QuatR.length_eq_one b (by unfold QuatR.lengthSq; linarith)
  rw [if_neg h2]
  push_neg at h1 h2
  by_cases hflip : a.x * b.x + a.y * b.y + a.z * b.z + a.w * b.w < 0
  · simp only [if_pos hflip]
    exact slerp_tail_length a (-b.x) (-b.y) (-b.z) (-b.w) t
      (-(a.x * b.x + a.y * b.y + a.z * b.z + a.w * b.w))
      ha (by linarith [hb])
      (by ring) (by linarith) h1 h2
  · simp only [if_neg hflip]
    exact slerp_tail_length a b.x b.y b.z b.w t
      (a.x * b.x + a.y * b.y + a.z * b.z + a.w * b.w)
      ha hb rfl (by linarith [not_lt.mp hflip]) h1 h2

/-- C6 counterexample: for the non-unit quaternion q = (0, 0, 0, 2), slerp
of q with itself at t = 1/2 takes the cosHalfTheta >= 1 early return and
yields q itself, whose length is 2, so the result of slerp is not always
unit-length. -/
theorem slerp_nonunit_stays_nonunit :
    QuatR.length (QuatR.slerp ⟨0, 0, 0, 2⟩ ⟨0, 0, 0, 2⟩ (1 / 2)) ≠ 1 := by
  have h : QuatR.slerp ⟨0, 0, 0, 2⟩ ⟨0, 0, 0, 2⟩ (1 / 2) = ⟨0, 0, 0, 2⟩ := by
    unfold QuatR.slerp QuatR.slerpWith
    norm_num
  rw [h]
  unfold QuatR.length
  rw [show ((0 : ℝ) * 0 + 0 * 0 + 0 * 0 + 2 * 2) = 2 ^ 2 by norm_num,
    Real.sqrt_sq (by norm_num)]
  norm_num

/-- C6 (amended): for all quaternions a and b and any choice of
trigonometric primitives, slerp(a, b, t) with t <= 0 equals a exactly and
with t >= 1 equals b exactly (hence within 1e-5), the clamping being
branch-level and independent of the trigonometric functions; and the
result of slerp is unit-length whenever both inputs are unit quaternions
(for non-unit inputs the early returns hand back a non-unit input
unchanged). -/
theorem slerp_endpoints_and_unit (ops : TrigOps) (a b : QuatR) (t : ℝ) :
    (t ≤ 0 → QuatR.slerpWith ops a b t = a)
    ∧ (1 ≤ t → QuatR.slerpWith ops a b t = b)
    ∧ (a.lengthSq = 1 → b.lengthSq = 1 → (QuatR.slerp a b t).length = 1) := by
  refine ⟨fun h => ?_, fun h => ?_, fun ha hb => QuatR.length_slerp a b t ha hb⟩
  · unfold QuatR.slerpWith
    rw [if_pos h]
  · unfold QuatR.slerpWith
    rw [if_neg (by linarith), if_pos h]

/-- C6 witness: at the identity quaternion and the unit quaternion
(1, 0, 0, 0), slerp clamps to the first endpoint at t = 0 and produces a
unit-length result at t = 1/2. -/
theorem slerp_endpoints_and_unit_witness :
    QuatR.slerpWith realTrig ⟨0, 0, 0, 1⟩ ⟨1, 0, 0, 0⟩ 0 = ⟨0, 0, 0, 1⟩
    ∧ QuatR.length (QuatR.slerp ⟨0, 0, 0, 1⟩ ⟨1, 0, 0, 0⟩ (1 / 2)) = 1 := by
  constructor
  · exact (slerp_endpoints_and_unit realTrig ⟨0, 0, 0, 1⟩ ⟨1, 0, 0, 0⟩ 0).1 le_rfl
  · exact (slerp_endpoints_and_unit realTrig ⟨0, 0, 0, 1⟩ ⟨1, 0, 0, 0⟩ (1 / 2)).2.2
      (by unfold QuatR.lengthSq; norm_num) (by unfold QuatR.lengthSq; norm_num)

/-- The instance Hamilton product this.multiply(q) from Quat.ts lines
116-126, with the receiver as left operand. -/
def QuatR.mul (a b : QuatR) : QuatR :=
  ⟨a.x * b.w + a.w * b.x + a.y * b.z - a.z * b.y,
   a.y * b.w + a.w * b.y + a.z * b.x - a.x * b.z,
   a.z * b.w + a.w * b.z + a.x * b.y - a.y * b.x,
   a.w * b.w - a.x * b.x - a.y * b.y - a.z * b.z⟩

/-- Quat.prototype.setFromEuler (Quat.ts lines 225-243): intrinsic XYZ
half-angle products. -/
def QuatR.setFromEuler (x y z : ℝ) : QuatR :=
  let cx := Real.cos (x * 0.5)
  let sx := Real.sin (x * 0.5)
  let cy := Real.cos (y * 0.5)
  let sy := Real.sin (y * 0.5)
  let cz := Real.cos (z * 0.5)
  let sz := Real.sin (z * 0.5)
  ⟨sx * cy * cz - cx * sy * sz,
   cx * sy * cz + sx * cy * sz,
   cx * cy * sz - sx * sy * cz,
   cx * cy * cz + sx * sy * sz⟩

/-- Quat.prototype.rotateX (Quat.ts lines 170-183). -/
def QuatR.rotateX (q : QuatR) (radians : ℝ) : QuatR :=
  let bx := Real.sin (radians * 0.5)
  let bw := Real.cos (radians * 0.5)
  ⟨q.x * bw + q.w * bx, q.y * bw + q.z * bx, q.z * bw - q.y * bx, q.w * bw - q.x * bx⟩

/-- Quat.prototype.rotateY (Quat.ts lines 185-198). -/
def QuatR.rotateY (q : QuatR) (radians : ℝ) : QuatR :=
  let by0 := Real.sin (radians * 0.5)
  let bw := Real.cos (radians * 0.5)
  ⟨q.x * bw - q.z * by0, q.y * bw + q.w * by0, q.z * bw + q.x * by0, q.w * bw - q.y * by0⟩

/-- Quat.prototype.rotateZ (Quat.ts lines 200-213). -/
def QuatR.rotateZ (q : QuatR) (radians : ℝ) : QuatR :=
  let bz := Real.sin (radians * 0.5)
  let bw := Real.cos (radians * 0.5)
  ⟨q.x * bw + q.y * bz, q.y * bw - q.x * bz, q.z * bw + q.w * bz, q.w * bw - q.z * bz⟩

/-- Quat.prototype.setFromAxisAngle (Quat.ts lines 215-223). -/
def QuatR.setFromAxisAngle (axis : Vec3R) (radians : ℝ) : QuatR :=
  let s := Real.sin (radians * 0.5)
  ⟨axis.x * s, axis.y * s, axis.z * s, Real.cos (radians * 0.5)⟩

/-- Quat.prototype.invert over reals (Quat.ts lines 159-168): a no-op when
the squared length is below EPSILON, otherwise conjugate divided by the
squared length (real division idealises the f64 division; the JsF model
covers the special values). -/
def QuatR.invert (q : QuatR) : QuatR :=
  let len2 := q.x * q.x + q.y * q.y + q.z * q.z + q.w * q.w
  if len2 < EPSILON then q
  else
    let invLen2 := 1 / len2
    ⟨-q.x * invLen2, -q.y * invLen2, -q.z * invLen2, q.w * invLen2⟩

/-- Quat.prototype.transformVec3 over reals (Quat.ts lines 394-412). -/
def QuatR.transformVec3 (q : QuatR) (v : Vec3R) : Vec3R :=
  let ix := q.w * v.x + q.y * v.z - q.z * v.y
  let iy := q.w * v.y + q.z * v.x - q.x * v.z
  let iz := q.w * v.z + q.x * v.y - q.y * v.x
  let iw := -q.x * v.x - q.y * v.y - q.z * v.z
  ⟨ix * q.w + iw * -q.x + iy * -q.z - iz * -q.y,
   iy * q.w + iw * -q.y + iz * -q.x - ix * -q.z,
   iz * q.w + iw * -q.z + ix * -q.y - iy * -q.x⟩

/-- The instance Vec3 lerp this.lerp(v, t) from Vec3.ts lines 207-212. -/
def Vec3R.lerpV (a b : Vec3R) (t : ℝ) : Vec3R :=
  ⟨a.x + (b.x - a.x) * t, a.y + (b.y - a.y) * t, a.z + (b.z - a.z) * t⟩

/-- Transform.prototype.computeMatrix (Transform.ts lines 217-249): the
closed-form TRS composition written into the output matrix. -/
def computeMatrixTRS (p : Vec3R) (q : QuatR) (s : Vec3R) : Mat4R :=
  let x2 := q.x + q.x
  let y2 := q.y + q.y
  let z2 := q.z + q.z
  let xx := q.x * x2
  let xy := q.x * y2
  let xz := q.x * z2
  let yy := q.y * y2
  let yz := q.y * z2
  let zz := q.z * z2
  let wx := q.w * x2
  let wy := q.w * y2
  let wz := q.w * z2
  { m00 := (1 - (yy + zz)) * s.x
    m01 := (xy + wz) * s.x
    m02 := (xz - wy) * s.x
    m03 := 0
    m04 := (xy - wz) * s.y
    m05 := (1 - (xx + zz)) * s.y
    m06 := (yz + wx) * s.y
    m07 := 0
    m08 := (xz + wy) * s.z
    m09 := (yz - wx) * s.z
    m10 := (1 - (xx + yy)) * s.z
    m11 := 0
    m12 := p.x
    m13 := p.y
    m14 := p.z
    m15 := 1 }

/-- The full state of a Transform: position, rotation, scale, the lazily
allocated cached matrix, and the dirty flag. -/
structure TransformS where
  position : Vec3R
  rotation : QuatR
  scale : Vec3R
  matrix : Option Mat4R
  dirty : Bool

/-- The Transform constructor: identity components, no cached matrix,
dirty set. -/
def TransformS.init : TransformS :=
  ⟨⟨0, 0, 0⟩, ⟨0, 0, 0, 1⟩, ⟨1, 1, 1⟩, none, true⟩

/-- The public Transform mutators named by the specification, with their
arguments. -/
inductive TMutation where
  | setPosition (x y z : ℝ)
  | translate (x y z : ℝ)
  | setRotation (x y z w : ℝ)
  | setEuler (x y z : ℝ)
  | rotateX (r : ℝ)
  | rotateY (r : ℝ)
  | rotateZ (r : ℝ)
  | rotateAxisAngle (axis : Vec3R) (r : ℝ)
  | setScale (x y z : ℝ)
  | scaleBy (x y z : ℝ)
  | compose (other : TransformS)
  | invert
  | lerp (other : TransformS) (t : ℝ)
  | copy (src : TransformS)
  | setIdentity

/-- One public mutator applied to a Transform state, each translated from
Transform.ts; every branch sets the dirty flag and leaves the cached
matrix untouched, exactly as the source does. -/
def TransformS.applyMutation (s : TransformS) : TMutation → TransformS
  | .setPosition x y z => { s with position := ⟨x, y, z⟩, dirty := true }
  | .translate x y z =>
      { s with
        position := ⟨s.position.x + x, s.position.y + y, s.position.z + z⟩
        dirty := true }
  | .setRotation x y z w => { s with rotation := ⟨x, y, z, w⟩, dirty := true }
  | .setEuler x y z => { s with rotation := QuatR.setFromEuler x y z, dirty := true }
  | .rotateX r => { s with rotation := s.rotation.rotateX r, dirty := true }
  | .rotateY r => { s with rotation := s.rotation.rotateY r, dirty := true }
  | .rotateZ r => { s with rotation := s.rotation.rotateZ r, dirty := true }
  | .rotateAxisAngle axis r =>
      -- this.rotation.setFromAxisAngle(axis, radians).multiply(this.rotation):
      -- the argument aliases the receiver after setFromAxisAngle, so the
      -- freshly stored quaternion is multiplied with itself
      let qa := QuatR.setFromAxisAngle axis r
      { s with rotation := qa.mul qa, dirty := true }
  | .setScale x y z => { s with scale := ⟨x, y, z⟩, dirty := true }
  | .scaleBy x y z =>
      { s with
        scale := ⟨s.scale.x * x, s.scale.y * y, s.scale.z * z⟩
        dirty := true }
  | .compose o =>
      let sc : Vec3R := ⟨s.scale.x * o.scale.x, s.scale.y * o.scale.y, s.scale.z * o.scale.z⟩
      let rot := s.rotation.mul o.rotation
      let rp := rot.transformVec3 o.position
      { s with
        position := ⟨s.position.x + rp.x * sc.x, s.position.y + rp.y * sc.y,
          s.position.z + rp.z * sc.z⟩
        rotation := rot
        scale := sc
        dirty := true }
  | .invert =>
      let sc : Vec3R := ⟨1 / s.scale.x, 1 / s.scale.y, 1 / s.scale.z⟩
      let rot := s.rotation.invert
      let p1 : Vec3R := ⟨s.position.x * (-1), s.position.y * (-1), s.position.z * (-1)⟩
      let p2 : Vec3R := ⟨p1.x * sc.x, p1.y * sc.y, p1.z * sc.z⟩
      { s with
        position := rot.transformVec3 p2
        rotation := rot
        scale := sc
        dirty := true }
  | .lerp o t =>
      { s with
        position := Vec3R.lerpV s.position o.position t
        rotation := QuatR.slerp s.rotation o.rotation t
        scale := Vec3R.lerpV s.scale o.scale t
        dirty := true }
  | .copy src =>
      { s with
        position := src.position
        rotation := src.rotation
        scale := src.scale
        dirty := true }
  | .setIdentity =>
      { s with
        position := ⟨0, 0, 0⟩
        rotation := ⟨0, 0, 0, 1⟩
        scale := ⟨1, 1, 1⟩
        dirty := true }

/-- The matrix computed from the current components of a Transform. -/
def TransformS.computeMatrix (s : TransformS) : Mat4R :=
  computeMatrixTRS s.position s.rotation s.scale

/-- Transform.prototype.getMatrix (Transform.ts lines 206-215): when the
dirty flag is set or no matrix has been cached, recompute into the cache
and clear the flag; otherwise return the cached instance unchanged. -/
def TransformS.getMatrix (s : TransformS) : Mat4R × TransformS :=
  match s.dirty, s.matrix with
  | false, some m => (m, s)
  | _, _ =>
    let m := s.computeMatrix
    (m, { s with matrix := some m, dirty := false })

/-- Running a sequence of public mutators from a freshly constructed
Transform. -/
def TransformS.run (ms : List TMutation) : TransformS :=
  ms.foldl TransformS.applyMutation TransformS.init

/-- Cache coherence: a clean Transform caches exactly the matrix of its
current components. -/
def TransformS.coherent (s : TransformS) : Prop :=
  s.dirty = false → s.matrix = some s.computeMatrix

/-- Every public mutator sets the dirty flag. -/
theorem TransformS.applyMutation_dirty (s : TransformS) (mu : TMutation) :
    (s.applyMutation mu).dirty = true := by
  cases mu <;> rfl

/-- Every public mutator leaves the state coherent, since it marks the
state dirty. -/
theorem TransformS.coherent_applyMutation (s : TransformS) (mu : TMutation) :
    (s.applyMutation mu).coherent := by
  intro h
  rw [TransformS.applyMutation_dirty] at h
  exact absurd h (by simp)

/-- A freshly constructed Transform is coherent (it starts dirty). -/
theorem TransformS.coherent_init : TransformS.init.coherent := by
  intro h
  simp [TransformS.init] at h

/-- Every state reachable from the constructor through public mutators is
coherent. -/
theorem TransformS.coherent_run (ms : List TMutation) : (TransformS.run ms).coherent := by
  unfold TransformS.run
  have main : ∀ (l : List TMutation) (s : TransformS), s.coherent →
      (l.foldl TransformS.applyMutation s).coherent := by
    intro l
    induction l with
    | nil => intro s hs; exact hs
    | cons m rest ih =>
      intro s hs
      exact ih (s.applyMutation m) (s.coherent_applyMutation m)
  exact main ms TransformS.init TransformS.coherent_init

/-- On a coherent state, getMatrix returns the matrix of the current
components, caches it, and clears the dirty flag. -/
theorem TransformS.getMatrix_spec (s : TransformS) (h : s.coherent) :
    (s.getMatrix).1 = s.computeMatrix
    ∧ (s.getMatrix).2.dirty = false
    ∧ (s.getMatrix).2.matrix = some ((s.getMatrix).1) := by
  rcases hm : s.matrix with _ | m <;> rcases hd : s.dirty
  · simp [TransformS.getMatrix, hm, hd]
  · simp [TransformS.getMatrix, hm, hd]
  · have := h hd
    rw [hm] at this
    simp [TransformS.getMatrix, hm, hd]
    exact Option.some_inj.mp this
  · simp [TransformS.getMatrix, hm, hd]

/-- C8: every public Transform mutator (setPosition, translate,
setRotation, setEuler, rotateX, rotateY, rotateZ, rotateAxisAngle,
setScale, scaleBy, compose, invert, lerp, copy, setIdentity) sets the
dirty flag; and for every sequence of public mutator calls starting from
the constructor, getMatrix() returns exactly computeMatrix applied to the
current position, rotation and scale, afterwards holding that matrix in
the cache with a cleared flag — the cache is never stale. -/
theorem transform_dirty_cache_never_stale :
    (∀ (s : TransformS) (mu : TMutation), (s.applyMutation mu).dirty = true)
    ∧ (∀ ms : List TMutation,
        ((TransformS.run ms).getMatrix).1 =
          computeMatrixTRS (TransformS.run ms).position (TransformS.run ms).rotation
            (TransformS.run ms).scale)
    ∧ (∀ ms : List TMutation,
        ((TransformS.run ms).getMatrix).2.dirty = false
        ∧ ((TransformS.run ms).getMatrix).2.matrix =
            some (((TransformS.run ms).getMatrix).1)) := by
  refine ⟨TransformS.applyMutation_dirty, fun ms => ?_, fun ms => ?_⟩
  · exact ((TransformS.run ms).getMatrix_spec (TransformS.coherent_run ms)).1
  · exact ((TransformS.run ms).getMatrix_spec (TransformS.coherent_run ms)).2
